import Mathlib

/-!
PokerTH session manager (`src/net/common/sessionmanager.cpp`).

A shallow embedding of `SessionManager`, the registry of client sessions of the
PokerTH server, and of the properties its specification states.

* `m_sessionMap` is a `std::map<SessionId, boost::shared_ptr<SessionData>>`.
  It is embedded as `SessionMap`: the list of its entries in iteration order
  together with the ordering invariant of `std::map` (keys strictly ascending).
* A `boost::shared_ptr<T>` may be empty, so pointers are `Option`s.  Applying
  `->` to an empty pointer is not a `ServerException`; it is reported by the
  separate outcome `Fault.NullDereference`.
* The recursive mutex is not modelled: every member function runs under the
  lock, so the embedding gives the sequential behaviour of each call.
* `unsigned` counters are natural numbers; a map cannot hold enough entries
  to wrap them.
-/

namespace PokerTH

/-! ## Data model -/

/-- Modelled from the spec: `SessionId` is declared in a header that is not part
of the sources; section 6 describes it as an equality-comparable, totally ordered
value. -/
abbrev SessionId := Nat

/-- Modelled from the spec: the handle of a session's transport (the result of
`GetAsioSocket()`), declared in the absent `net/sessiondata.h`. -/
abbrev Socket := Nat

/-- Modelled from the spec: the opaque payload handed to the sender. -/
abbrev NetPacket := Nat

/-- Modelled from the spec: `SessionData::State` is declared in the absent
`net/sessiondata.h`; section 4.2 lists the states in ascending order. -/
inductive State where
  | Init
  | Established
  | Game
  deriving DecidableEq, Repr

/-- The enumerator value of a state, used by `>=` in `GetEstablishedSessionCount`. -/
def State.toNat : State → Nat
  | State.Init => 0
  | State.Established => 1
  | State.Game => 2

/-- Modelled from the spec: `PlayerData` (absent `playerdata.h`) has a unique
numeric id and a display name. -/
structure PlayerData where
  uniqueId : Nat
  name : String
  deriving DecidableEq, Repr

/-- Accessor `PlayerData::GetName`. -/
def PlayerData.GetName (p : PlayerData) : String := p.name

/-- Accessor `PlayerData::GetUniqueId`. -/
def PlayerData.GetUniqueId (p : PlayerData) : Nat := p.uniqueId

/-- Modelled from the spec: `SessionData` (absent `net/sessiondata.h`) with the
fields of section 3. -/
structure SessionData where
  id : SessionId
  state : State
  playerData : Option PlayerData
  readyFlag : Bool
  clientAddr : String
  socket : Socket
  wantsLobbyMsg : Bool
  deriving DecidableEq, Repr

namespace SessionData

/-- Accessor `SessionData::GetId`. -/
def GetId (s : SessionData) : SessionId := s.id

/-- Accessor `SessionData::GetState`. -/
def GetState (s : SessionData) : State := s.state

/-- Accessor `SessionData::GetPlayerData`; `none` is the empty pointer. -/
def GetPlayerData (s : SessionData) : Option PlayerData := s.playerData

/-- Accessor `SessionData::IsReady`. -/
def IsReady (s : SessionData) : Bool := s.readyFlag

/-- Accessor `SessionData::GetClientAddr`. -/
def GetClientAddr (s : SessionData) : String := s.clientAddr

/-- Accessor `SessionData::GetAsioSocket`; the socket pointer of a session is
taken to be non-empty. -/
def GetAsioSocket (s : SessionData) : Socket := s.socket

/-- Accessor `SessionData::WantsLobbyMsg`. -/
def WantsLobbyMsg (s : SessionData) : Bool := s.wantsLobbyMsg

/-- Mutator `SessionData::SetPlayerData`. -/
def SetPlayerData (s : SessionData) (p : Option PlayerData) : SessionData :=
  { s with playerData := p }

/-- Mutator `SessionData::ResetReadyFlag`. -/
def ResetReadyFlag (s : SessionData) : SessionData :=
  { s with readyFlag := false }

end SessionData

/-- A `boost::shared_ptr<SessionData>`; `none` is the empty pointer. -/
abbrev SessionPtr := Option SessionData

/-- One `SessionMap::value_type`: the key and the stored pointer. -/
abbrev Entry := SessionId × SessionPtr

/-- The ways a member function can end other than by returning. -/
inductive Fault where
  /-- A ServerException carrying ERR_SOCK_CONN_EXISTS (SessionAlreadyExists). -/
  | ERR_SOCK_CONN_EXISTS
  /-- A ServerException carrying ERR_NET_INVALID_SESSION (InvalidSessionState). -/
  | ERR_NET_INVALID_SESSION
  /-- The arrow operator applied to an empty pointer; the source throws nothing. -/
  | NullDereference
  /-- Use of a map iterator whose entry has been erased. -/
  | InvalidIterator
  deriving DecidableEq, Repr

/-! ## The map -/

/-- The keys of a list of entries, in order. -/
def keysOf (l : List Entry) : List SessionId := l.map Prod.fst

/-- The `std::map` holding the sessions: its entries in iteration order, with
strictly ascending keys. -/
structure SessionMap where
  entries : List Entry
  ascending : (keysOf entries).Pairwise (fun a b => a < b)

namespace SessionMap

/-- A default-constructed map; also the result of `clear()`. -/
def empty : SessionMap := ⟨[], List.Pairwise.nil⟩

/-- Member `std::map::empty`. -/
def isEmpty (m : SessionMap) : Bool := m.entries.isEmpty

/-- Member `std::map::size`. -/
def size (m : SessionMap) : Nat := m.entries.length

/-- The keys of the map, ascending. -/
def keys (m : SessionMap) : List SessionId := keysOf m.entries

/-- Search used by `std::map::find`: the pointer stored under `k`, if any. -/
def findIn (k : SessionId) : List Entry → Option SessionPtr
  | [] => none
  | e :: rest => if e.1 = k then some e.2 else findIn k rest

/-- Member `std::map::find`: `none` is `end()`, `some p` an iterator to the
entry under `k`, whose pointer is `p`. -/
def find (m : SessionMap) (k : SessionId) : Option SessionPtr := findIn k m.entries

/-- Search used by `std::map::lower_bound`. -/
def lowerBoundIn (k : SessionId) : List Entry → Option Entry
  | [] => none
  | e :: rest => if e.1 < k then lowerBoundIn k rest else some e

/-- Member `std::map::lower_bound`: the first entry whose key is not less than
`k`; `none` is `end()`. -/
def lower_bound (m : SessionMap) (k : SessionId) : Option Entry := lowerBoundIn k m.entries

/-- Insertion into an ascending list; an entry with an equal key is kept. -/
def insertIn (e : Entry) : List Entry → List Entry
  | [] => [e]
  | x :: rest =>
    if x.1 < e.1 then x :: insertIn e rest
    else if e.1 < x.1 then e :: x :: rest
    else x :: rest

/-- Removal of the entries stored under `k`. -/
def eraseIn (k : SessionId) (l : List Entry) : List Entry := l.filter (fun e => e.1 ≠ k)

end SessionMap

/-! ## Facts about the map operations -/

theorem keysOf_cons (e : Entry) (l : List Entry) : keysOf (e :: l) = e.1 :: keysOf l := rfl

theorem mem_keysOf {k : SessionId} {l : List Entry} : k ∈ keysOf l ↔ ∃ p, (k, p) ∈ l := by
  unfold keysOf
  constructor
  · intro h
    obtain ⟨e, he, rfl⟩ := List.mem_map.1 h
    exact ⟨e.2, he⟩
  · rintro ⟨p, hp⟩
    exact List.mem_map.2 ⟨(k, p), hp, rfl⟩

theorem mem_keysOf_insertIn (e : Entry) (l : List Entry) (k : SessionId)
    (h : k ∈ keysOf (SessionMap.insertIn e l)) : k = e.1 ∨ k ∈ keysOf l := by
  induction l with
  | nil =>
    simp [SessionMap.insertIn, keysOf] at h
    exact Or.inl h
  | cons x rest ih =>
    unfold SessionMap.insertIn at h
    split_ifs at h with h1 h2
    · rw [keysOf_cons, List.mem_cons] at h
      rcases h with h | h
      · right; rw [keysOf_cons]; exact List.mem_cons.2 (Or.inl h)
      · rcases ih h with h | h
        · exact Or.inl h
        · right; rw [keysOf_cons]; exact List.mem_cons.2 (Or.inr h)
    · rw [keysOf_cons, List.mem_cons] at h
      rcases h with h | h
      · exact Or.inl h
      · exact Or.inr h
    · exact Or.inr h

theorem insertIn_ascending (e : Entry) (l : List Entry)
    (h : (keysOf l).Pairwise (fun a b => a < b)) :
    (keysOf (SessionMap.insertIn e l)).Pairwise (fun a b => a < b) := by
  induction l with
  | nil => simp [SessionMap.insertIn, keysOf]
  | cons x rest ih =>
    rw [keysOf_cons, List.pairwise_cons] at h
    unfold SessionMap.insertIn
    split_ifs with h1 h2
    · rw [keysOf_cons, List.pairwise_cons]
      refine ⟨?_, ih h.2⟩
      intro k hk
      rcases mem_keysOf_insertIn e rest k hk with hk | hk
      · rw [hk]; exact h1
      · exact h.1 k hk
    · rw [keysOf_cons, List.pairwise_cons]
      refine ⟨?_, ?_⟩
      · intro k hk
        rw [keysOf_cons, List.mem_cons] at hk
        rcases hk with hk | hk
        · rw [hk]; exact h2
        · exact lt_trans h2 (h.1 k hk)
      · rw [keysOf_cons, List.pairwise_cons]
        exact h
    · rw [keysOf_cons, List.pairwise_cons]
      exact h

theorem eraseIn_ascending (k : SessionId) (l : List Entry)
    (h : (keysOf l).Pairwise (fun a b => a < b)) :
    (keysOf (SessionMap.eraseIn k l)).Pairwise (fun a b => a < b) := by
  unfold keysOf SessionMap.eraseIn at *
  exact h.sublist (List.Sublist.map _ (List.filter_sublist l))

namespace SessionMap

/-- Member `std::map::insert(hint, value)`: the value is inserted at its place in
key order unless the key is already present; the hint affects only the cost. -/
def insert (m : SessionMap) (e : Entry) : SessionMap :=
  ⟨insertIn e m.entries, insertIn_ascending e m.entries m.ascending⟩

/-- Member `std::map::erase(key)`: removes the entry under `k` and returns the
number of entries removed. -/
def erase (m : SessionMap) (k : SessionId) : SessionMap × Nat :=
  (⟨eraseIn k m.entries, eraseIn_ascending k m.entries m.ascending⟩,
    m.entries.length - (eraseIn k m.entries).length)

/-- Application of `f` to the session stored under `k` (a write through the
stored pointer); keys and all other entries are kept. -/
def modifyIn (k : SessionId) (f : SessionData → SessionData) (l : List Entry) : List Entry :=
  l.map (fun e => if e.1 = k then (e.1, e.2.map f) else e)

end SessionMap

theorem keysOf_modifyIn (k : SessionId) (f : SessionData → SessionData) (l : List Entry) :
    keysOf (SessionMap.modifyIn k f l) = keysOf l := by
  induction l with
  | nil => rfl
  | cons e rest ih =>
    have h : SessionMap.modifyIn k f (e :: rest)
        = (if e.1 = k then (e.1, e.2.map f) else e) :: SessionMap.modifyIn k f rest := rfl
    rw [h, keysOf_cons, keysOf_cons, ih]
    split_ifs <;> rfl

namespace SessionMap

/-- A write through the pointer stored under `k`. -/
def modify (m : SessionMap) (k : SessionId) (f : SessionData → SessionData) : SessionMap :=
  ⟨modifyIn k f m.entries, by rw [keysOf_modifyIn]; exact m.ascending⟩

end SessionMap

/-! ## The collaborators -/

/-- The transport capability used by Clear: `close(ec)` on a socket changes the
outside world `ω` and reports an error code through `ec` (0 for success). -/
structure Transport (ω : Type) where
  close : Socket → ω → Nat × ω

/-- The sender capability (SenderHelper): `Send(session, packet)` changes the
outside world `ω`. -/
structure SenderHelper (ω : Type) where
  Send : SessionData → NetPacket → ω → ω

/-- The transport that records the sockets it is asked to close, in call order;
`ec` tells which error code each close reports. -/
def recordingTransport (ec : Socket → Nat) : Transport (List Socket) :=
  ⟨fun sock log => (ec sock, log ++ [sock])⟩

/-- The sender that records its invocations, in call order. -/
def recordingSender : SenderHelper (List (SessionData × NetPacket)) :=
  ⟨fun s packet log => log ++ [(s, packet)]⟩

/-- The function object given to ForEach: it receives the stored pointer and may
act on the session manager (it runs under the re-entrant lock) and on the
outside world `ω`. -/
abbrev Visitor (ω : Type) := SessionPtr → SessionMap → ω → SessionMap × ω

/-! ## SessionManager -/

namespace SessionManager

/-- Source: SessionManager::HasSessions. -/
def HasSessions (m : SessionMap) : Bool := !m.isEmpty

/-- Source: SessionManager::AddSession.  The result is how the call ends and the
map it leaves. -/
def AddSession (m : SessionMap) (session : SessionPtr) : Except Fault Unit × SessionMap :=
  match session with
  | none => (Except.error Fault.NullDereference, m)
  | some s =>
    match m.lower_bound s.GetId with
    | some pos =>
      if s.GetId = pos.1 then (Except.error Fault.ERR_SOCK_CONN_EXISTS, m)
      else (Except.ok (), m.insert (s.GetId, some s))
    | none => (Except.ok (), m.insert (s.GetId, some s))

/-- Source: SessionManager::SetSessionPlayerData. -/
def SetSessionPlayerData (m : SessionMap) (session : SessionId)
    (playerData : Option PlayerData) : Except Fault Unit × SessionMap :=
  match m.find session with
  | none => (Except.ok (), m)
  | some none => (Except.error Fault.NullDereference, m)
  | some (some _) => (Except.ok (), m.modify session (fun s => s.SetPlayerData playerData))

/-- Source: SessionManager::RemoveSession.  The result is the returned flag and
the map the call leaves. -/
def RemoveSession (m : SessionMap) (session : SessionId) : Bool × SessionMap :=
  (decide ((m.erase session).2 = 1), (m.erase session).1)

/-- Source: SessionManager::GetSessionById. -/
def GetSessionById (m : SessionMap) (id : SessionId) : SessionPtr :=
  match m.find id with
  | some p => p
  | none => none

/-- The loop of GetSessionByPlayerName over the entries from `session_i` on. -/
def GetSessionByPlayerNameLoop (playerName : String) : List Entry → Except Fault SessionPtr
  | [] => Except.ok none
  | (_, none) :: _ => Except.error Fault.NullDereference
  | (_, some s) :: rest =>
    if s.GetState ≠ State.Init then
      match s.GetPlayerData with
      | none => Except.error Fault.ERR_NET_INVALID_SESSION
      | some tmpPlayer =>
        if tmpPlayer.GetName = playerName then Except.ok (some s)
        else GetSessionByPlayerNameLoop playerName rest
    else GetSessionByPlayerNameLoop playerName rest

/-- Source: SessionManager::GetSessionByPlayerName. -/
def GetSessionByPlayerName (m : SessionMap) (playerName : String) : Except Fault SessionPtr :=
  GetSessionByPlayerNameLoop playerName m.entries

/-- The loop of GetSessionByUniquePlayerId over the entries from `session_i` on. -/
def GetSessionByUniquePlayerIdLoop (uniqueId : Nat) (initSessions : Bool) :
    List Entry → Except Fault SessionPtr
  | [] => Except.ok none
  | (_, none) :: _ => Except.error Fault.NullDereference
  | (_, some s) :: rest =>
    if initSessions ∨ s.GetState ≠ State.Init then
      match s.GetPlayerData with
      | some tmpPlayer =>
        if tmpPlayer.GetUniqueId = uniqueId then Except.ok (some s)
        else GetSessionByUniquePlayerIdLoop uniqueId initSessions rest
      | none => GetSessionByUniquePlayerIdLoop uniqueId initSessions rest
    else GetSessionByUniquePlayerIdLoop uniqueId initSessions rest

/-- Source: SessionManager::GetSessionByUniquePlayerId. -/
def GetSessionByUniquePlayerId (m : SessionMap) (uniqueId : Nat) (initSessions : Bool) :
    Except Fault SessionPtr :=
  GetSessionByUniquePlayerIdLoop uniqueId initSessions m.entries

/-- The loop of GetPlayerDataList; `playerList` is the list built so far. -/
def GetPlayerDataListLoop : List Entry → List PlayerData → Except Fault (List PlayerData)
  | [], playerList => Except.ok playerList
  | (_, none) :: _, _ => Except.error Fault.NullDereference
  | (_, some s) :: rest, playerList =>
    if s.GetState = State.Game then
      match s.GetPlayerData with
      | none => Except.error Fault.ERR_NET_INVALID_SESSION
      | some tmpPlayer =>
        if tmpPlayer.GetName.isEmpty then Except.error Fault.ERR_NET_INVALID_SESSION
        else GetPlayerDataListLoop rest (playerList ++ [tmpPlayer])
    else GetPlayerDataListLoop rest playerList

/-- Source: SessionManager::GetPlayerDataList. -/
def GetPlayerDataList (m : SessionMap) : Except Fault (List PlayerData) :=
  GetPlayerDataListLoop m.entries []

/-- The loop of GetPlayerIdList; `playerList` is the list built so far. -/
def GetPlayerIdListLoop (state : State) : List Entry → List Nat → Except Fault (List Nat)
  | [], playerList => Except.ok playerList
  | (_, none) :: _, _ => Except.error Fault.NullDereference
  | (_, some s) :: rest, playerList =>
    if s.GetState = state then
      match s.GetPlayerData with
      | none => Except.error Fault.NullDereference
      | some p => GetPlayerIdListLoop state rest (playerList ++ [p.GetUniqueId])
    else GetPlayerIdListLoop state rest playerList

/-- Source: SessionManager::GetPlayerIdList. -/
def GetPlayerIdList (m : SessionMap) (state : State) : Except Fault (List Nat) :=
  GetPlayerIdListLoop state m.entries []

/-- Source: SessionManager::IsPlayerConnected(const string &). -/
def IsPlayerConnected_name (m : SessionMap) (playerName : String) : Except Fault Bool :=
  match GetSessionByPlayerName m playerName with
  | Except.error f => Except.error f
  | Except.ok tmpSession =>
    match tmpSession with
    | some s => Except.ok s.GetPlayerData.isSome
    | none => Except.ok false

/-- Source: SessionManager::IsPlayerConnected(unsigned).  The lookup is called
with one argument; `initSessionsDefault` is the default value of its second
parameter, declared in the absent header. -/
def IsPlayerConnected_uniqueId (initSessionsDefault : Bool) (m : SessionMap) (uniqueId : Nat) :
    Except Fault Bool :=
  match GetSessionByUniquePlayerId m uniqueId initSessionsDefault with
  | Except.error f => Except.error f
  | Except.ok tmpSession =>
    match tmpSession with
    | some s => Except.ok s.GetPlayerData.isSome
    | none => Except.ok false

/-- The loop of IsClientAddressConnected. -/
def IsClientAddressConnectedLoop (clientAddress : String) : List Entry → Except Fault Bool
  | [] => Except.ok false
  | (_, none) :: _ => Except.error Fault.NullDereference
  | (_, some s) :: rest =>
    if s.GetClientAddr = clientAddress then Except.ok true
    else IsClientAddressConnectedLoop clientAddress rest

/-- Source: SessionManager::IsClientAddressConnected. -/
def IsClientAddressConnected (m : SessionMap) (clientAddress : String) : Except Fault Bool :=
  IsClientAddressConnectedLoop clientAddress m.entries

/-- The loop of CountReadySessions; `counter` is the count so far. -/
def CountReadySessionsLoop : List Entry → Nat → Except Fault Nat
  | [], counter => Except.ok counter
  | (_, none) :: _, _ => Except.error Fault.NullDereference
  | (_, some s) :: rest, counter =>
    if s.IsReady then CountReadySessionsLoop rest (counter + 1)
    else CountReadySessionsLoop rest counter

/-- Source: SessionManager::CountReadySessions. -/
def CountReadySessions (m : SessionMap) : Except Fault Nat :=
  CountReadySessionsLoop m.entries 0

/-- The loop of ResetAllReadyFlags: how it ends, and the entries from `i` on as
it leaves them. -/
def ResetAllReadyFlagsLoop : List Entry → Except Fault Unit × List Entry
  | [] => (Except.ok (), [])
  | (k, none) :: rest => (Except.error Fault.NullDereference, (k, none) :: rest)
  | (k, some s) :: rest =>
    ((ResetAllReadyFlagsLoop rest).1, (k, some s.ResetReadyFlag) :: (ResetAllReadyFlagsLoop rest).2)

theorem keysOf_ResetAllReadyFlagsLoop (l : List Entry) :
    keysOf (ResetAllReadyFlagsLoop l).2 = keysOf l := by
  induction l with
  | nil => rfl
  | cons e rest ih =>
    obtain ⟨k, p⟩ := e
    cases p with
    | none => rfl
    | some s =>
      unfold ResetAllReadyFlagsLoop
      rw [keysOf_cons, keysOf_cons, ih]

/-- Source: SessionManager::ResetAllReadyFlags. -/
def ResetAllReadyFlags (m : SessionMap) : Except Fault Unit × SessionMap :=
  ((ResetAllReadyFlagsLoop m.entries).1,
    ⟨(ResetAllReadyFlagsLoop m.entries).2, by
      rw [keysOf_ResetAllReadyFlagsLoop]; exact m.ascending⟩)

/-- Source: SessionManager::GetRawSessionCount. -/
def GetRawSessionCount (m : SessionMap) : Nat := m.size

/-- The loop of GetEstablishedSessionCount; `counter` is the count so far. -/
def GetEstablishedSessionCountLoop : List Entry → Nat → Except Fault Nat
  | [], counter => Except.ok counter
  | (_, none) :: _, _ => Except.error Fault.NullDereference
  | (_, some s) :: rest, counter =>
    if s.GetState.toNat ≥ State.Established.toNat then
      GetEstablishedSessionCountLoop rest (counter + 1)
    else GetEstablishedSessionCountLoop rest counter

/-- Source: SessionManager::GetEstablishedSessionCount. -/
def GetEstablishedSessionCount (m : SessionMap) : Except Fault Nat :=
  GetEstablishedSessionCountLoop m.entries 0

/-- The loop of Clear: how it ends and the outside world it leaves. -/
def ClearLoop {ω : Type} (tr : Transport ω) : List Entry → ω → Except Fault Unit × ω
  | [], w => (Except.ok (), w)
  | (_, none) :: _, w => (Except.error Fault.NullDereference, w)
  | (_, some s) :: rest, w => ClearLoop tr rest (tr.close s.GetAsioSocket w).2

/-- Source: SessionManager::Clear.  The error code of each close is stored in
the local `ec` and never read. -/
def Clear {ω : Type} (tr : Transport ω) (m : SessionMap) (w : ω) :
    Except Fault Unit × SessionMap × ω :=
  match ClearLoop tr m.entries w with
  | (Except.ok (), w1) => (Except.ok (), SessionMap.empty, w1)
  | (Except.error f, w1) => (Except.error f, m, w1)

/-- The loop of SendToAllSessions: how it ends and the outside world it leaves. -/
def SendToAllSessionsLoop {ω : Type} (sender : SenderHelper ω) (packet : NetPacket)
    (state : State) : List Entry → ω → Except Fault Unit × ω
  | [], w => (Except.ok (), w)
  | (_, none) :: _, w => (Except.error Fault.ERR_NET_INVALID_SESSION, w)
  | (_, some s) :: rest, w =>
    if s.GetState = state then
      SendToAllSessionsLoop sender packet state rest (sender.Send s packet w)
    else SendToAllSessionsLoop sender packet state rest w

/-- Source: SessionManager::SendToAllSessions.  The map is only read. -/
def SendToAllSessions {ω : Type} (sender : SenderHelper ω) (packet : NetPacket) (state : State)
    (m : SessionMap) (w : ω) : Except Fault Unit × SessionMap × ω :=
  ((SendToAllSessionsLoop sender packet state m.entries w).1, m,
    (SendToAllSessionsLoop sender packet state m.entries w).2)

/-- The loop of SendLobbyMsgToAllSessions. -/
def SendLobbyMsgToAllSessionsLoop {ω : Type} (sender : SenderHelper ω) (packet : NetPacket)
    (state : State) : List Entry → ω → Except Fault Unit × ω
  | [], w => (Except.ok (), w)
  | (_, none) :: _, w => (Except.error Fault.ERR_NET_INVALID_SESSION, w)
  | (_, some s) :: rest, w =>
    if s.GetState = state ∧ s.WantsLobbyMsg = true then
      SendLobbyMsgToAllSessionsLoop sender packet state rest (sender.Send s packet w)
    else SendLobbyMsgToAllSessionsLoop sender packet state rest w

/-- Source: SessionManager::SendLobbyMsgToAllSessions.  The map is only read. -/
def SendLobbyMsgToAllSessions {ω : Type} (sender : SenderHelper ω) (packet : NetPacket)
    (state : State) (m : SessionMap) (w : ω) : Except Fault Unit × SessionMap × ω :=
  ((SendLobbyMsgToAllSessionsLoop sender packet state m.entries w).1, m,
    (SendLobbyMsgToAllSessionsLoop sender packet state m.entries w).2)

/-- The loop of SendToAllButOneSessions; it has no check for an empty pointer. -/
def SendToAllButOneSessionsLoop {ω : Type} (sender : SenderHelper ω) (packet : NetPacket)
    (except : SessionId) (state : State) : List Entry → ω → Except Fault Unit × ω
  | [], w => (Except.ok (), w)
  | (_, none) :: _, w => (Except.error Fault.NullDereference, w)
  | (k, some s) :: rest, w =>
    if s.GetState = state then
      if k ≠ except then
        SendToAllButOneSessionsLoop sender packet except state rest (sender.Send s packet w)
      else SendToAllButOneSessionsLoop sender packet except state rest w
    else SendToAllButOneSessionsLoop sender packet except state rest w

/-- Source: SessionManager::SendToAllButOneSessions.  The map is only read. -/
def SendToAllButOneSessions {ω : Type} (sender : SenderHelper ω) (packet : NetPacket)
    (except : SessionId) (state : State) (m : SessionMap) (w : ω) :
    Except Fault Unit × SessionMap × ω :=
  ((SendToAllButOneSessionsLoop sender packet except state m.entries w).1, m,
    (SendToAllButOneSessionsLoop sender packet except state m.entries w).2)

/-- The result of incrementing an iterator that points at key `k`: the first
key of the map greater than `k`; `none` is `end()`. -/
def nextKey (m : SessionMap) (k : SessionId) : Option SessionId :=
  m.keys.find? (fun j => decide (k < j))

/-- The loop of ForEach.  An iterator is the key it points at (`none` for
`end()`); it stays usable while that key is in the map.  Each pass captures
`next` before calling `func`.  The visitor may insert entries, so the number of
passes is bounded by `fuel`, and the result is `none` when the bound is hit.
The last component lists the entries visited (the key the iterator was at and
the pointer handed to `func`), in call order. -/
def ForEachLoop {ω : Type} (func : Visitor ω) :
    Nat → Option SessionId → SessionMap → ω →
      Option (Except Fault Unit × SessionMap × ω × List Entry)
  | _, none, m, w => some (Except.ok (), m, w, [])
  | 0, some _, _, _ => none
  | fuel + 1, some k, m, w =>
    match m.find k with
    | none => some (Except.error Fault.InvalidIterator, m, w, [])
    | some p =>
      match ForEachLoop func fuel (nextKey m k) (func p m w).1 (func p m w).2 with
      | none => none
      | some r => some (r.1, r.2.1, r.2.2.1, (k, p) :: r.2.2.2)

/-- Source: SessionManager::ForEach, started at `begin()`. -/
def ForEach {ω : Type} (func : Visitor ω) (fuel : Nat) (m : SessionMap) (w : ω) :
    Option (Except Fault Unit × SessionMap × ω × List Entry) :=
  ForEachLoop func fuel m.keys.head? m w

end SessionManager

/-! ## Well-formedness predicates -/

/-- No entry of the map holds an empty pointer. -/
def NoNullEntry (m : SessionMap) : Prop := ∀ e ∈ m.entries, e.2 ≠ none

/-- Every session is stored under its own id. -/
def KeyIsId (m : SessionMap) : Prop := ∀ k s, (k, some s) ∈ m.entries → s.GetId = k

/-- The sessions held by a list of entries, with their keys, in order. -/
def sessionsOf (l : List Entry) : List (SessionId × SessionData) :=
  l.filterMap (fun e => e.2.map (fun s => (e.1, s)))

/-- The sessions of the map with their keys, in ascending key order. -/
def SessionMap.sessions (m : SessionMap) : List (SessionId × SessionData) :=
  sessionsOf m.entries

/-- The sessions stored before the first empty pointer, in order. -/
def sessionsBeforeNull : List Entry → List (SessionId × SessionData)
  | [] => []
  | (_, none) :: _ => []
  | (k, some s) :: rest => (k, s) :: sessionsBeforeNull rest

/-- Whether some entry of the list holds an empty pointer. -/
def hasNull (l : List Entry) : Bool := l.any (fun e => e.2.isNone)

instance (m : SessionMap) : Decidable (NoNullEntry m) := by
  unfold NoNullEntry; infer_instance

/-! ## Definitions used to state the properties -/

/-- Session A of the scenario: id 1, state Init, no player. -/
def sessionA : SessionData :=
  { id := 1, state := State.Init, playerData := none, readyFlag := false,
    clientAddr := "10.0.0.1", socket := 101, wantsLobbyMsg := true }

/-- Session B of the scenario: id 2, Established, player alice with unique id 10. -/
def sessionB : SessionData :=
  { id := 2, state := State.Established, playerData := some ⟨10, "alice"⟩, readyFlag := false,
    clientAddr := "10.0.0.2", socket := 102, wantsLobbyMsg := false }

/-- Session C of the scenario: id 3, Game, player bob with unique id 20, ready. -/
def sessionC : SessionData :=
  { id := 3, state := State.Game, playerData := some ⟨20, "bob"⟩, readyFlag := true,
    clientAddr := "10.0.0.3", socket := 103, wantsLobbyMsg := true }

/-- The registry of the scenario: A, B and C under their ids. -/
def scenario : SessionMap :=
  ⟨[(1, some sessionA), (2, some sessionB), (3, some sessionC)], by decide⟩

/-- A fourth session: id 4, Game, player carol with unique id 30, not ready, no
lobby messages wanted. -/
def sessionD : SessionData :=
  { id := 4, state := State.Game, playerData := some ⟨30, "carol"⟩, readyFlag := false,
    clientAddr := "10.0.0.4", socket := 104, wantsLobbyMsg := false }

/-- The scenario extended by session D. -/
def scenarioD : SessionMap :=
  ⟨[(1, some sessionA), (2, some sessionB), (3, some sessionC), (4, some sessionD)], by decide⟩

/-- A session that is Established but has no PlayerData: id 5. -/
def sessionE : SessionData :=
  { id := 5, state := State.Established, playerData := none, readyFlag := false,
    clientAddr := "10.0.0.5", socket := 105, wantsLobbyMsg := false }

/-- A registry holding B and, after it, the faulty session E. -/
def registryBE : SessionMap := ⟨[(2, some sessionB), (5, some sessionE)], by decide⟩

/-- A session in state Init that already carries PlayerData named alice: id 1. -/
def sessionF : SessionData :=
  { id := 1, state := State.Init, playerData := some ⟨11, "alice"⟩, readyFlag := false,
    clientAddr := "10.0.0.6", socket := 106, wantsLobbyMsg := false }

/-- A registry holding F (Init, alice) and, after it, B (Established, alice). -/
def registryFB : SessionMap := ⟨[(1, some sessionF), (2, some sessionB)], by decide⟩

/-- One invocation of `sender.Send` with `packet` for each element of `sel`, in
the order of `sel`, started in the world `w`. -/
def deliver {ω : Type} (sender : SenderHelper ω) (packet : NetPacket)
    (sel : List (SessionId × SessionData)) (w : ω) : ω :=
  sel.foldl (fun w1 ks => sender.Send ks.2 packet w1) w

/-- A registry whose first entry is an empty pointer, followed by session C. -/
def nullThenC : SessionMap := ⟨[(1, none), (3, some sessionC)], by decide⟩

/-- One invocation of `close` on the socket of each element of `sel`, in the
order of `sel`, started in the world `w`; the reported error codes are dropped. -/
def closeAll {ω : Type} (tr : Transport ω) (sel : List (SessionId × SessionData)) (w : ω) : ω :=
  sel.foldl (fun w1 ks => (tr.close ks.2.GetAsioSocket w1).2) w

/-- The entries with the ready flag of every session cleared. -/
def resetEntries (l : List Entry) : List Entry :=
  l.map (fun e => (e.1, e.2.map SessionData.ResetReadyFlag))

/-- Whether a session is one GetSessionByPlayerName looks for: not in state
Init and with PlayerData of the given name. -/
def matchesName (playerName : String) (s : SessionData) : Bool :=
  decide (s.GetState ≠ State.Init) &&
    (match s.GetPlayerData with
     | some p => decide (p.GetName = playerName)
     | none => false)

/-- Whether a session makes GetPlayerDataList fail: it is in state Game and its
PlayerData is absent or has an empty name. -/
def gameFaulty (s : SessionData) : Bool :=
  decide (s.GetState = State.Game) &&
    (match s.GetPlayerData with
     | none => true
     | some p => p.GetName.isEmpty)

/-- The PlayerData of the sessions in state Game, in order. -/
def gamePlayersOf (sel : List (SessionId × SessionData)) : List PlayerData :=
  (sel.filter (fun ks => decide (ks.2.GetState = State.Game))).filterMap
    (fun ks => ks.2.GetPlayerData)

/-- Whether a session is one GetSessionByUniquePlayerId looks for: it has
PlayerData with the given unique id and is not in state Init unless
`initSessions` is set. -/
def matchesUniqueId (uniqueId : Nat) (initSessions : Bool) (s : SessionData) : Bool :=
  (initSessions || decide (s.GetState ≠ State.Init)) &&
    (match s.GetPlayerData with
     | some p => decide (p.GetUniqueId = uniqueId)
     | none => false)

/-- The left fold of the visitor over a list of entries: `func` is applied to the
pointer of each entry in turn, each call starting from the map and the outside
world the previous call left. -/
def visitEntries {ω : Type} (func : Visitor ω) (l : List Entry) (m : SessionMap) (w : ω) :
    SessionMap × ω :=
  l.foldl (fun st e => func e.2 st.1 st.2) (m, w)

/-- The left fold of the visitor over a list of keys: for each key in turn `func`
is applied to the pointer stored under that key in the map the previous call
left. -/
def visitKeys {ω : Type} (func : Visitor ω) (ks : List SessionId) (m : SessionMap) (w : ω) :
    SessionMap × ω :=
  ks.foldl
    (fun st k =>
      match st.1.find k with
      | some p => func p st.1 st.2
      | none => st)
    (m, w)

/-- A visitor that removes the session it is given from the registry, by
RemoveSession on that session's id, and logs the id. -/
def removingVisitor : Visitor (List SessionId) :=
  fun p m log =>
    match p with
    | some s => ((SessionManager.RemoveSession m s.GetId).2, log ++ [s.GetId])
    | none => (m, log)

/-- The registries reachable from the empty one by calls of AddSession,
RemoveSession, SetSessionPlayerData, ResetAllReadyFlags and Clear, with any
arguments; a call that throws counts with the map it leaves. -/
inductive Reachable : SessionMap → Prop where
  | init : Reachable SessionMap.empty
  | addSession (m : SessionMap) (session : SessionPtr) :
      Reachable m → Reachable (SessionManager.AddSession m session).2
  | removeSession (m : SessionMap) (id : SessionId) :
      Reachable m → Reachable (SessionManager.RemoveSession m id).2
  | setSessionPlayerData (m : SessionMap) (id : SessionId) (playerData : Option PlayerData) :
      Reachable m → Reachable (SessionManager.SetSessionPlayerData m id playerData).2
  | resetAllReadyFlags (m : SessionMap) :
      Reachable m → Reachable (SessionManager.ResetAllReadyFlags m).2
  | clear {ω : Type} (tr : Transport ω) (w : ω) (m : SessionMap) :
      Reachable m → Reachable (SessionManager.Clear tr m w).2.1

/-- The scenario as the session manager builds it: A, B and C added in turn. -/
def scenarioBuilt : SessionMap :=
  (SessionManager.AddSession
    (SessionManager.AddSession
      (SessionManager.AddSession SessionMap.empty (some sessionA)).2 (some sessionB)).2
    (some sessionC)).2

/-- RemoveSession run in an outside world `w` (the sockets and whatever else
lies outside the map).  The source only erases the key from the map and calls
nothing on a session or a socket, so the world is handed back as it is. -/
def RemoveSessionIn {ω : Type} (m : SessionMap) (session : SessionId) (w : ω) :
    Bool × SessionMap × ω :=
  ((SessionManager.RemoveSession m session).1, (SessionManager.RemoveSession m session).2, w)

/-- The unique ids of the sessions in `state`, in order, where PlayerData is
present. -/
def playerIdsOf (state : State) (sel : List (SessionId × SessionData)) : List Nat :=
  (sel.filter (fun ks => decide (ks.2.GetState = state))).filterMap
    (fun ks => ks.2.GetPlayerData.map PlayerData.GetUniqueId)

/-! ## Basic lemmas -/

theorem SessionMap.ext_entries {m1 m2 : SessionMap} (h : m1.entries = m2.entries) : m1 = m2 := by
  cases m1; cases m2; cases h; rfl

theorem findIn_eq_none {k : SessionId} {l : List Entry} :
    SessionMap.findIn k l = none ↔ k ∉ keysOf l := by
  induction l with
  | nil => simp [SessionMap.findIn, keysOf]
  | cons e rest ih =>
    unfold SessionMap.findIn
    rw [keysOf_cons, List.mem_cons]
    by_cases h : e.1 = k
    · simp [h]
    · rw [if_neg h, ih]
      constructor
      · intro h1 h2
        rcases h2 with h2 | h2
        · exact h h2.symm
        · exact h1 h2
      · intro h1 h2
        exact h1 (Or.inr h2)

theorem findIn_some_mem {k : SessionId} {p : SessionPtr} {l : List Entry}
    (h : SessionMap.findIn k l = some p) : (k, p) ∈ l := by
  induction l with
  | nil => simp [SessionMap.findIn] at h
  | cons e rest ih =>
    unfold SessionMap.findIn at h
    split_ifs at h with hk
    · have hp : e.2 = p := Option.some.inj h
      have : e = (k, p) := Prod.ext hk hp
      rw [this]
      exact List.mem_cons_self _ _
    · exact List.mem_cons_of_mem _ (ih h)

theorem lowerBoundIn_of_mem {k : SessionId} {l : List Entry}
    (hl : (keysOf l).Pairwise (fun a b => a < b)) (hk : k ∈ keysOf l) :
    ∃ p, SessionMap.lowerBoundIn k l = some (k, p) := by
  induction l with
  | nil => simp [keysOf] at hk
  | cons e rest ih =>
    rw [keysOf_cons, List.pairwise_cons] at hl
    rw [keysOf_cons, List.mem_cons] at hk
    unfold SessionMap.lowerBoundIn
    by_cases h : e.1 < k
    · rw [if_pos h]
      rcases hk with hk | hk
      · rw [hk] at h
        exact absurd h (lt_irrefl _)
      · exact ih hl.2 hk
    · rw [if_neg h]
      rcases hk with hk | hk
      · exact ⟨e.2, by rw [hk]⟩
      · exact absurd (hl.1 k hk) h

theorem eraseIn_of_not_mem {k : SessionId} {l : List Entry} (hk : k ∉ keysOf l) :
    SessionMap.eraseIn k l = l := by
  unfold SessionMap.eraseIn
  rw [List.filter_eq_self]
  intro e he
  have : e.1 ≠ k := by
    intro h
    exact hk (mem_keysOf.2 ⟨e.2, by rw [← h]; exact he⟩)
  simpa using this

theorem not_mem_keysOf_eraseIn (k : SessionId) (l : List Entry) :
    k ∉ keysOf (SessionMap.eraseIn k l) := by
  intro h
  obtain ⟨p, hp⟩ := mem_keysOf.1 h
  unfold SessionMap.eraseIn at hp
  have := (List.mem_filter.1 hp).2
  simp at this

theorem eraseIn_cons_eq {k : SessionId} {p : SessionPtr} {rest : List Entry}
    (hl : (keysOf ((k, p) :: rest)).Pairwise (fun a b => a < b)) :
    SessionMap.eraseIn k ((k, p) :: rest) = rest := by
  rw [keysOf_cons, List.pairwise_cons] at hl
  have hk : k ∉ keysOf rest := fun h => lt_irrefl _ (hl.1 k h)
  have h1 : SessionMap.eraseIn k ((k, p) :: rest) = SessionMap.eraseIn k rest := by
    unfold SessionMap.eraseIn
    simp
  rw [h1, eraseIn_of_not_mem hk]

theorem eraseIn_cons_ne {k : SessionId} {e : Entry} {rest : List Entry} (h : e.1 ≠ k) :
    SessionMap.eraseIn k (e :: rest) = e :: SessionMap.eraseIn k rest := by
  unfold SessionMap.eraseIn
  simp [h]

theorem length_eraseIn_of_mem {k : SessionId} {l : List Entry}
    (hl : (keysOf l).Pairwise (fun a b => a < b)) (hk : k ∈ keysOf l) :
    (SessionMap.eraseIn k l).length + 1 = l.length := by
  induction l with
  | nil => simp [keysOf] at hk
  | cons e rest ih =>
    by_cases h : e.1 = k
    · obtain ⟨k1, p⟩ := e
      simp only at h
      subst h
      rw [eraseIn_cons_eq hl]
      rfl
    · rw [eraseIn_cons_ne h]
      rw [keysOf_cons, List.mem_cons] at hk
      rw [keysOf_cons, List.pairwise_cons] at hl
      rcases hk with hk | hk
      · exact absurd hk.symm h
      · have := ih hl.2 hk
        simp only [List.length_cons]
        omega

/-! ## C1: AddSession with an id that is present -/

/-- C1: when the id of the session is already a key of the registry, AddSession
ends with ERR_SOCK_CONN_EXISTS and leaves the registry as it was: the same map,
hence the same pointer under that id and the same raw session count. -/
theorem C1_AddSession_existing_id (m : SessionMap) (s : SessionData)
    (h : s.GetId ∈ m.keys) :
    SessionManager.AddSession m (some s) = (Except.error Fault.ERR_SOCK_CONN_EXISTS, m)
    ∧ SessionManager.GetSessionById (SessionManager.AddSession m (some s)).2 s.GetId
        = SessionManager.GetSessionById m s.GetId
    ∧ SessionManager.GetRawSessionCount (SessionManager.AddSession m (some s)).2
        = SessionManager.GetRawSessionCount m := by
  obtain ⟨p, hp⟩ := lowerBoundIn_of_mem m.ascending h
  have h1 : SessionManager.AddSession m (some s)
      = (Except.error Fault.ERR_SOCK_CONN_EXISTS, m) := by
    unfold SessionManager.AddSession SessionMap.lower_bound
    simp only [hp]
    simp
  rw [h1]
  exact ⟨rfl, rfl, rfl⟩

/-- C1 at the scenario: adding a second session with id 2 fails and keeps B. -/
theorem C1_AddSession_existing_id_witness :
    ({ sessionA with id := 2 }).GetId ∈ scenario.keys
    ∧ SessionManager.AddSession scenario (some { sessionA with id := 2 })
        = (Except.error Fault.ERR_SOCK_CONN_EXISTS, scenario)
    ∧ SessionManager.GetSessionById
        (SessionManager.AddSession scenario (some { sessionA with id := 2 })).2 2 = some sessionB :=
  ⟨by decide,
    (C1_AddSession_existing_id scenario { sessionA with id := 2 } (by decide)).1,
    by rw [(C1_AddSession_existing_id scenario { sessionA with id := 2 } (by decide)).1]; rfl⟩

/-! ## C2: RemoveSession -/

theorem RemoveSession_of_mem {m : SessionMap} {id : SessionId} (h : id ∈ m.keys) :
    (SessionManager.RemoveSession m id).1 = true
    ∧ (SessionManager.RemoveSession m id).2.entries.length + 1 = m.entries.length := by
  have hlen := length_eraseIn_of_mem m.ascending h
  refine ⟨?_, hlen⟩
  unfold SessionManager.RemoveSession SessionMap.erase
  simp only [decide_eq_true_eq]
  omega

theorem RemoveSession_of_not_mem {m : SessionMap} {id : SessionId} (h : id ∉ m.keys) :
    SessionManager.RemoveSession m id = (false, m) := by
  have he := eraseIn_of_not_mem h
  unfold SessionManager.RemoveSession SessionMap.erase
  refine Prod.ext ?_ ?_
  · simp only [he]
    simp
  · exact SessionMap.ext_entries he

theorem not_mem_keys_RemoveSession (m : SessionMap) (id : SessionId) :
    id ∉ (SessionManager.RemoveSession m id).2.keys :=
  not_mem_keysOf_eraseIn id m.entries

theorem GetSessionById_of_not_mem {m : SessionMap} {id : SessionId} (h : id ∉ m.keys) :
    SessionManager.GetSessionById m id = none := by
  unfold SessionManager.GetSessionById SessionMap.find
  rw [findIn_eq_none.2 h]

/-- C2: RemoveSession returns true exactly when the id is a key of the registry;
the raw session count drops by one on a true removal (and not otherwise);
afterwards the id is looked up in vain; a second RemoveSession of the same id
returns false and leaves the registry as the first one left it. -/
theorem C2_RemoveSession (m : SessionMap) (id : SessionId) :
    ((SessionManager.RemoveSession m id).1 = true ↔ id ∈ m.keys)
    ∧ SessionManager.GetRawSessionCount (SessionManager.RemoveSession m id).2
        + (if (SessionManager.RemoveSession m id).1 = true then 1 else 0)
        = SessionManager.GetRawSessionCount m
    ∧ SessionManager.GetSessionById (SessionManager.RemoveSession m id).2 id = none
    ∧ (SessionManager.RemoveSession m id).2.find id = none
    ∧ SessionManager.RemoveSession (SessionManager.RemoveSession m id).2 id
        = (false, (SessionManager.RemoveSession m id).2) := by
  have hnot := not_mem_keys_RemoveSession m id
  refine ⟨?_, ?_, GetSessionById_of_not_mem hnot, findIn_eq_none.2 hnot,
    RemoveSession_of_not_mem hnot⟩
  · constructor
    · intro h
      by_contra hk
      rw [RemoveSession_of_not_mem hk] at h
      exact Bool.false_ne_true h
    · intro h
      exact (RemoveSession_of_mem h).1
  · by_cases hk : id ∈ m.keys
    · rw [if_pos (RemoveSession_of_mem hk).1]
      exact (RemoveSession_of_mem hk).2
    · rw [RemoveSession_of_not_mem hk]
      rfl

/-! ## Broadcasts: C3, C4, C5 -/

theorem deliver_cons {ω : Type} (sender : SenderHelper ω) (packet : NetPacket)
    (ks : SessionId × SessionData) (sel : List (SessionId × SessionData)) (w : ω) :
    deliver sender packet (ks :: sel) w = deliver sender packet sel (sender.Send ks.2 packet w) :=
  rfl

theorem deliver_recording (packet : NetPacket) (sel : List (SessionId × SessionData))
    (log : List (SessionData × NetPacket)) :
    deliver recordingSender packet sel log = log ++ sel.map (fun ks => (ks.2, packet)) := by
  induction sel generalizing log with
  | nil => simp [deliver]
  | cons ks rest ih =>
    rw [deliver_cons, ih]
    simp [recordingSender]

theorem sessionsOf_cons_some (k : SessionId) (s : SessionData) (l : List Entry) :
    sessionsOf ((k, some s) :: l) = (k, s) :: sessionsOf l := by
  simp [sessionsOf]

theorem sessionsOf_cons_none (k : SessionId) (l : List Entry) :
    sessionsOf ((k, none) :: l) = sessionsOf l := by
  simp [sessionsOf]

theorem mem_sessionsOf {k : SessionId} {s : SessionData} {l : List Entry} :
    (k, s) ∈ sessionsOf l ↔ (k, some s) ∈ l := by
  induction l with
  | nil => simp [sessionsOf]
  | cons e rest ih =>
    obtain ⟨k1, p⟩ := e
    cases p with
    | none => rw [sessionsOf_cons_none, ih]; simp
    | some s1 =>
      rw [sessionsOf_cons_some, List.mem_cons, List.mem_cons, ih]
      simp

theorem sessionsOf_keys_sublist (l : List Entry) :
    ((sessionsOf l).map Prod.fst).Sublist (keysOf l) := by
  induction l with
  | nil => simp [sessionsOf, keysOf]
  | cons e rest ih =>
    obtain ⟨k1, p⟩ := e
    cases p with
    | none =>
      rw [sessionsOf_cons_none, keysOf_cons]
      exact ih.trans (List.sublist_cons_self _ _)
    | some s1 =>
      rw [sessionsOf_cons_some, keysOf_cons]
      exact ih.cons_cons _

theorem sessions_ascending (m : SessionMap) :
    (m.sessions.map Prod.fst).Pairwise (fun a b => a < b) :=
  m.ascending.sublist (sessionsOf_keys_sublist m.entries)

theorem filter_sessions_ascending (m : SessionMap) (q : SessionId × SessionData → Bool) :
    ((m.sessions.filter q).map Prod.fst).Pairwise (fun a b => a < b) :=
  (sessions_ascending m).sublist (List.Sublist.map _ (List.filter_sublist _))

theorem filter_sessions_ids_ascending {m : SessionMap} (hk : KeyIsId m)
    (q : SessionId × SessionData → Bool) :
    ((m.sessions.filter q).map (fun ks => ks.2.GetId)).Pairwise (fun a b => a < b) := by
  have h : (m.sessions.filter q).map (fun ks => ks.2.GetId)
      = (m.sessions.filter q).map Prod.fst := by
    apply List.map_congr_left
    intro ks hks
    exact hk ks.1 ks.2 (mem_sessionsOf.1 (List.mem_filter.1 hks).1)
  rw [h]
  exact filter_sessions_ascending m q

theorem sessionsBeforeNull_of_noNull {l : List Entry} (h : ∀ e ∈ l, e.2 ≠ none) :
    sessionsBeforeNull l = sessionsOf l ∧ hasNull l = false := by
  induction l with
  | nil => exact ⟨rfl, rfl⟩
  | cons e rest ih =>
    obtain ⟨k1, p⟩ := e
    cases p with
    | none => exact absurd rfl (h (k1, none) (List.mem_cons_self _ _))
    | some s1 =>
      have ih1 := ih (fun e he => h e (List.mem_cons_of_mem _ he))
      constructor
      · rw [sessionsOf_cons_some]
        unfold sessionsBeforeNull
        rw [ih1.1]
      · have := ih1.2
        unfold hasNull at this ⊢
        simpa using this

theorem SendToAllSessionsLoop_eq {ω : Type} (sender : SenderHelper ω) (packet : NetPacket)
    (state : State) (l : List Entry) (w : ω) :
    SessionManager.SendToAllSessionsLoop sender packet state l w
      = (if hasNull l then Except.error Fault.ERR_NET_INVALID_SESSION else Except.ok (),
          deliver sender packet
            ((sessionsBeforeNull l).filter (fun ks => decide (ks.2.GetState = state))) w) := by
  induction l generalizing w with
  | nil => rfl
  | cons e rest ih =>
    obtain ⟨k1, p⟩ := e
    cases p with
    | none => rfl
    | some s1 =>
      unfold SessionManager.SendToAllSessionsLoop
      have hn : hasNull ((k1, some s1) :: rest) = hasNull rest := by simp [hasNull]
      rw [hn]
      unfold sessionsBeforeNull
      by_cases hs : s1.GetState = state
      · rw [if_pos hs, ih]
        simp [List.filter_cons, hs, deliver_cons]
      · rw [if_neg hs, ih]
        simp [List.filter_cons, hs]

theorem SendLobbyMsgToAllSessionsLoop_eq {ω : Type} (sender : SenderHelper ω)
    (packet : NetPacket) (state : State) (l : List Entry) (w : ω) :
    SessionManager.SendLobbyMsgToAllSessionsLoop sender packet state l w
      = (if hasNull l then Except.error Fault.ERR_NET_INVALID_SESSION else Except.ok (),
          deliver sender packet
            ((sessionsBeforeNull l).filter
              (fun ks => decide (ks.2.GetState = state ∧ ks.2.WantsLobbyMsg = true))) w) := by
  induction l generalizing w with
  | nil => rfl
  | cons e rest ih =>
    obtain ⟨k1, p⟩ := e
    cases p with
    | none => rfl
    | some s1 =>
      unfold SessionManager.SendLobbyMsgToAllSessionsLoop
      have hn : hasNull ((k1, some s1) :: rest) = hasNull rest := by simp [hasNull]
      rw [hn]
      unfold sessionsBeforeNull
      by_cases hs : s1.GetState = state ∧ s1.WantsLobbyMsg = true
      · rw [if_pos hs, ih]
        simp [List.filter_cons, hs, deliver_cons]
      · rw [if_neg hs, ih]
        simp only [List.filter_cons, hs, decide_False]
        simp

theorem SendToAllButOneSessionsLoop_eq {ω : Type} (sender : SenderHelper ω)
    (packet : NetPacket) (except : SessionId) (state : State) (l : List Entry) (w : ω) :
    SessionManager.SendToAllButOneSessionsLoop sender packet except state l w
      = (if hasNull l then Except.error Fault.NullDereference else Except.ok (),
          deliver sender packet
            ((sessionsBeforeNull l).filter
              (fun ks => decide (ks.2.GetState = state ∧ ks.1 ≠ except))) w) := by
  induction l generalizing w with
  | nil => rfl
  | cons e rest ih =>
    obtain ⟨k1, p⟩ := e
    cases p with
    | none => rfl
    | some s1 =>
      unfold SessionManager.SendToAllButOneSessionsLoop
      have hn : hasNull ((k1, some s1) :: rest) = hasNull rest := by simp [hasNull]
      rw [hn]
      unfold sessionsBeforeNull
      by_cases hs : s1.GetState = state
      · by_cases hk : k1 ≠ except
        · rw [if_pos hs, if_pos hk, ih]
          simp [List.filter_cons, hs, hk, deliver_cons]
        · rw [if_pos hs, if_neg hk, ih]
          simp only [List.filter_cons, hs, hk, and_false, decide_False]
          simp
      · rw [if_neg hs, ih]
        simp only [List.filter_cons, hs, false_and, decide_False]
        simp

/-- C3: on a registry without an empty pointer, SendToAllSessions
returns normally, leaves the map as it is, and invokes `sender.Send` with the
given packet once for each session whose state is `state` and for no other, in
ascending order of the ids the sessions are stored under: the outside world is
the one `deliver` gives on the state-filtered session list, the recording sender
logs exactly that list, and its keys are strictly ascending, as are the ids of
its sessions when every session is stored under its own id. -/
theorem C3_SendToAllSessions {ω : Type} (sender : SenderHelper ω) (packet : NetPacket)
    (state : State) (m : SessionMap) (w : ω) (h : NoNullEntry m) :
    SessionManager.SendToAllSessions sender packet state m w
      = (Except.ok (), m,
          deliver sender packet (m.sessions.filter (fun ks => decide (ks.2.GetState = state))) w)
    ∧ (SessionManager.SendToAllSessions recordingSender packet state m []).2.2
      = (m.sessions.filter (fun ks => decide (ks.2.GetState = state))).map
          (fun ks => (ks.2, packet))
    ∧ ((m.sessions.filter (fun ks => decide (ks.2.GetState = state))).map Prod.fst).Pairwise
        (fun a b => a < b)
    ∧ (KeyIsId m →
        ((m.sessions.filter (fun ks => decide (ks.2.GetState = state))).map
          (fun ks => ks.2.GetId)).Pairwise (fun a b => a < b)) := by
  have hb := sessionsBeforeNull_of_noNull h
  refine ⟨?_, ?_, filter_sessions_ascending m _, fun hk => filter_sessions_ids_ascending hk _⟩
  · unfold SessionManager.SendToAllSessions
    rw [SendToAllSessionsLoop_eq, hb.1, hb.2]
    rfl
  · unfold SessionManager.SendToAllSessions
    rw [SendToAllSessionsLoop_eq, hb.1, deliver_recording]
    rfl

/-- C3 at the scenario: a Game broadcast reaches C only. -/
theorem C3_SendToAllSessions_witness :
    NoNullEntry scenario
    ∧ SessionManager.SendToAllSessions recordingSender 7 State.Game scenario []
      = (Except.ok (), scenario, [(sessionC, 7)]) :=
  ⟨by decide,
    (C3_SendToAllSessions recordingSender 7 State.Game scenario [] (by decide)).1.trans rfl⟩

/-- The guard of SendToAllSessions on a map holding an empty pointer (a map no
sequence of member-function calls produces): the broadcast ends with
ERR_NET_INVALID_SESSION at the empty pointer and session C, stored after it, is
not sent to. -/
theorem SendToAllSessions_null_entry :
    (3, some sessionC) ∈ nullThenC.entries
    ∧ sessionC.GetState = State.Game
    ∧ SessionManager.SendToAllSessions recordingSender 7 State.Game nullThenC []
      = (Except.error Fault.ERR_NET_INVALID_SESSION, nullThenC, [])
    ∧ (SessionManager.SendToAllSessions recordingSender 7 State.Game nullThenC []).2.2
      ≠ [(sessionC, 7)] := by
  refine ⟨by decide, rfl, rfl, ?_⟩
  intro h
  exact absurd h (by decide)

/-- C4: on a registry without an empty pointer, SendToAllButOneSessions returns
normally, leaves the map as it is, and invokes `sender.Send` with the given
packet once for each session whose state is `state` and that is stored under an
id other than `except`, and for no other, in ascending order of those ids; when
every session is stored under its own id, these are the sessions in `state`
whose own id is not `except`, in ascending order of their ids. -/
theorem C4_SendToAllButOneSessions {ω : Type} (sender : SenderHelper ω) (packet : NetPacket)
    (except : SessionId) (state : State) (m : SessionMap) (w : ω) (h : NoNullEntry m) :
    SessionManager.SendToAllButOneSessions sender packet except state m w
      = (Except.ok (), m,
          deliver sender packet
            (m.sessions.filter (fun ks => decide (ks.2.GetState = state ∧ ks.1 ≠ except))) w)
    ∧ (SessionManager.SendToAllButOneSessions recordingSender packet except state m []).2.2
      = (m.sessions.filter (fun ks => decide (ks.2.GetState = state ∧ ks.1 ≠ except))).map
          (fun ks => (ks.2, packet))
    ∧ ((m.sessions.filter
          (fun ks => decide (ks.2.GetState = state ∧ ks.1 ≠ except))).map Prod.fst).Pairwise
        (fun a b => a < b)
    ∧ (KeyIsId m →
        m.sessions.filter (fun ks => decide (ks.2.GetState = state ∧ ks.1 ≠ except))
          = m.sessions.filter (fun ks => decide (ks.2.GetState = state ∧ ks.2.GetId ≠ except))
        ∧ ((m.sessions.filter
              (fun ks => decide (ks.2.GetState = state ∧ ks.2.GetId ≠ except))).map
              (fun ks => ks.2.GetId)).Pairwise (fun a b => a < b)) := by
  have hb := sessionsBeforeNull_of_noNull h
  refine ⟨?_, ?_, filter_sessions_ascending m _,
    fun hk => ⟨?_, filter_sessions_ids_ascending hk _⟩⟩
  rotate_left 2
  · apply List.filter_congr
    intro ks hks
    rw [hk ks.1 ks.2 (mem_sessionsOf.1 hks)]
  · unfold SessionManager.SendToAllButOneSessions
    rw [SendToAllButOneSessionsLoop_eq, hb.1, hb.2]
    rfl
  · unfold SessionManager.SendToAllButOneSessions
    rw [SendToAllButOneSessionsLoop_eq, hb.1, deliver_recording]
    rfl

/-- C4 at the extended scenario: a Game broadcast that excepts id 3 reaches D
only, although C is in state Game. -/
theorem C4_SendToAllButOneSessions_witness :
    NoNullEntry scenarioD
    ∧ SessionManager.SendToAllButOneSessions recordingSender 7 3 State.Game scenarioD []
      = (Except.ok (), scenarioD, [(sessionD, 7)]) :=
  ⟨by decide,
    (C4_SendToAllButOneSessions recordingSender 7 3 State.Game scenarioD [] (by decide)).1.trans
      rfl⟩

/-- C5: on a registry without an empty pointer,
SendLobbyMsgToAllSessions returns normally, leaves the map as it is, and invokes
`sender.Send` with the given packet once for each session whose state is
`state` and that wants lobby messages, and for no other, in ascending order of
the ids the sessions are stored under, which is the ascending order of their
own ids when every session is stored under its own id. -/
theorem C5_SendLobbyMsgToAllSessions {ω : Type} (sender : SenderHelper ω)
    (packet : NetPacket) (state : State) (m : SessionMap) (w : ω) (h : NoNullEntry m) :
    SessionManager.SendLobbyMsgToAllSessions sender packet state m w
      = (Except.ok (), m,
          deliver sender packet
            (m.sessions.filter
              (fun ks => decide (ks.2.GetState = state ∧ ks.2.WantsLobbyMsg = true))) w)
    ∧ (SessionManager.SendLobbyMsgToAllSessions recordingSender packet state m []).2.2
      = (m.sessions.filter
          (fun ks => decide (ks.2.GetState = state ∧ ks.2.WantsLobbyMsg = true))).map
          (fun ks => (ks.2, packet))
    ∧ ((m.sessions.filter
          (fun ks => decide (ks.2.GetState = state ∧ ks.2.WantsLobbyMsg = true))).map
          Prod.fst).Pairwise (fun a b => a < b)
    ∧ (KeyIsId m →
        ((m.sessions.filter
            (fun ks => decide (ks.2.GetState = state ∧ ks.2.WantsLobbyMsg = true))).map
            (fun ks => ks.2.GetId)).Pairwise (fun a b => a < b)) := by
  have hb := sessionsBeforeNull_of_noNull h
  refine ⟨?_, ?_, filter_sessions_ascending m _, fun hk => filter_sessions_ids_ascending hk _⟩
  · unfold SessionManager.SendLobbyMsgToAllSessions
    rw [SendLobbyMsgToAllSessionsLoop_eq, hb.1, hb.2]
    rfl
  · unfold SessionManager.SendLobbyMsgToAllSessions
    rw [SendLobbyMsgToAllSessionsLoop_eq, hb.1, deliver_recording]
    rfl

/-- C5 at the extended scenario: a Game lobby broadcast reaches C and not D,
which is in state Game but wants no lobby messages. -/
theorem C5_SendLobbyMsgToAllSessions_witness :
    NoNullEntry scenarioD
    ∧ SessionManager.SendLobbyMsgToAllSessions recordingSender 7 State.Game scenarioD []
      = (Except.ok (), scenarioD, [(sessionC, 7)]) :=
  ⟨by decide,
    (C5_SendLobbyMsgToAllSessions recordingSender 7 State.Game scenarioD [] (by decide)).1.trans
      rfl⟩

/-- The guard of SendLobbyMsgToAllSessions on a map holding an empty pointer (a
map no sequence of member-function calls produces): the broadcast ends with
ERR_NET_INVALID_SESSION at the empty pointer and session C, stored after it, is
not sent to. -/
theorem SendLobbyMsgToAllSessions_null_entry :
    (3, some sessionC) ∈ nullThenC.entries
    ∧ sessionC.GetState = State.Game
    ∧ sessionC.WantsLobbyMsg = true
    ∧ SessionManager.SendLobbyMsgToAllSessions recordingSender 7 State.Game nullThenC []
      = (Except.error Fault.ERR_NET_INVALID_SESSION, nullThenC, [])
    ∧ (SessionManager.SendLobbyMsgToAllSessions recordingSender 7 State.Game nullThenC []).2.2
      ≠ [(sessionC, 7)] := by
  refine ⟨by decide, rfl, rfl, rfl, ?_⟩
  intro h
  exact absurd h (by decide)

/-! ## C6: Clear -/

theorem closeAll_recording (ec : Socket → Nat) (sel : List (SessionId × SessionData))
    (log : List Socket) :
    closeAll (recordingTransport ec) sel log = log ++ sel.map (fun ks => ks.2.GetAsioSocket) := by
  induction sel generalizing log with
  | nil => simp [closeAll]
  | cons ks rest ih =>
    have h : closeAll (recordingTransport ec) (ks :: rest) log
        = closeAll (recordingTransport ec) rest (log ++ [ks.2.GetAsioSocket]) := rfl
    rw [h, ih]
    simp

theorem ClearLoop_of_noNull {ω : Type} (tr : Transport ω) {l : List Entry}
    (h : ∀ e ∈ l, e.2 ≠ none) (w : ω) :
    SessionManager.ClearLoop tr l w = (Except.ok (), closeAll tr (sessionsOf l) w) := by
  induction l generalizing w with
  | nil => rfl
  | cons e rest ih =>
    obtain ⟨k1, p⟩ := e
    cases p with
    | none => exact absurd rfl (h (k1, none) (List.mem_cons_self _ _))
    | some s1 =>
      unfold SessionManager.ClearLoop
      rw [ih (fun e he => h e (List.mem_cons_of_mem _ he)), sessionsOf_cons_some]
      rfl

theorem count_map_socket (t : Socket) (sel : List (SessionId × SessionData)) :
    (sel.map (fun ks => ks.2.GetAsioSocket)).count t
      = (sel.filter (fun ks => decide (ks.2.GetAsioSocket = t))).length := by
  induction sel with
  | nil => rfl
  | cons ks rest ih =>
    rw [List.map_cons, List.count_cons, ih, List.filter_cons]
    by_cases h : ks.2.GetAsioSocket = t
    · simp [h]
    · simp [h]

/-- C6: on a registry without an empty pointer, Clear returns normally whatever
error codes the closes report, leaves an empty map (HasSessions false, raw count
0), and invokes `close` once for each session that was present, on that
session's socket and in key order, and on nothing else: the recording transport
logs exactly the sockets of the sessions, so each socket is closed as many times
as there are sessions holding it. -/
theorem C6_Clear {ω : Type} (tr : Transport ω) (ec : Socket → Nat) (m : SessionMap) (w : ω)
    (h : NoNullEntry m) :
    SessionManager.Clear tr m w = (Except.ok (), SessionMap.empty, closeAll tr m.sessions w)
    ∧ SessionManager.HasSessions (SessionManager.Clear tr m w).2.1 = false
    ∧ SessionManager.GetRawSessionCount (SessionManager.Clear tr m w).2.1 = 0
    ∧ SessionManager.Clear (recordingTransport ec) m []
        = (Except.ok (), SessionMap.empty, m.sessions.map (fun ks => ks.2.GetAsioSocket))
    ∧ ∀ t : Socket,
        (SessionManager.Clear (recordingTransport ec) m []).2.2.count t
          = (m.sessions.filter (fun ks => decide (ks.2.GetAsioSocket = t))).length := by
  have h1 : ∀ {ω1 : Type} (tr1 : Transport ω1) (w1 : ω1),
      SessionManager.Clear tr1 m w1
        = (Except.ok (), SessionMap.empty, closeAll tr1 m.sessions w1) := by
    intro ω1 tr1 w1
    unfold SessionManager.Clear
    rw [ClearLoop_of_noNull tr1 h w1]
    rfl
  have h2 : SessionManager.Clear (recordingTransport ec) m []
      = (Except.ok (), SessionMap.empty, m.sessions.map (fun ks => ks.2.GetAsioSocket)) := by
    rw [h1, closeAll_recording]
    rfl
  refine ⟨h1 tr w, ?_, ?_, h2, ?_⟩
  · rw [h1]; rfl
  · rw [h1]; rfl
  · intro t
    rw [h2]
    exact count_map_socket t m.sessions

/-- C6 at the scenario, with every close reporting error code 5: the three
sockets are closed once each and the registry is empty. -/
theorem C6_Clear_witness :
    NoNullEntry scenario
    ∧ SessionManager.Clear (recordingTransport (fun _ => 5)) scenario []
        = (Except.ok (), SessionMap.empty, [101, 102, 103]) :=
  ⟨by decide,
    (C6_Clear (recordingTransport (fun _ => 5)) (fun _ => 5) scenario [] (by decide)).1.trans rfl⟩

/-! ## C7: GetEstablishedSessionCount -/

theorem GetEstablishedSessionCountLoop_of_noNull {l : List Entry}
    (h : ∀ e ∈ l, e.2 ≠ none) (counter : Nat) :
    SessionManager.GetEstablishedSessionCountLoop l counter
      = Except.ok (counter + ((sessionsOf l).filter
          (fun ks => decide (State.Established.toNat ≤ ks.2.GetState.toNat))).length) := by
  induction l generalizing counter with
  | nil => rfl
  | cons e rest ih =>
    obtain ⟨k1, p⟩ := e
    cases p with
    | none => exact absurd rfl (h (k1, none) (List.mem_cons_self _ _))
    | some s1 =>
      have ih1 := ih (fun e he => h e (List.mem_cons_of_mem _ he))
      unfold SessionManager.GetEstablishedSessionCountLoop
      rw [sessionsOf_cons_some, List.filter_cons]
      by_cases hs : State.Established.toNat ≤ s1.GetState.toNat
      · rw [if_pos hs, ih1]
        simp only [hs, decide_True, if_true, List.length_cons]
        congr 1
        omega
      · rw [if_neg hs, ih1]
        simp only [hs, decide_False]
        simp

theorem established_le_iff (st : State) :
    State.Established.toNat ≤ st.toNat ↔ (st = State.Established ∨ st = State.Game) := by
  cases st <;> simp [State.toNat]

/-- C7: on a registry without an empty pointer, GetEstablishedSessionCount
returns the number of sessions whose state is not before Established in the
order Init, Established, Game, that is the number of sessions in state
Established or Game; Init sessions are not counted, and a registry made of one
session yields 1 unless that session is in state Init. -/
theorem C7_GetEstablishedSessionCount (m : SessionMap) (s : SessionData)
    (h : NoNullEntry m) :
    SessionManager.GetEstablishedSessionCount m
      = Except.ok (m.sessions.filter
          (fun ks => decide (State.Established.toNat ≤ ks.2.GetState.toNat))).length
    ∧ SessionManager.GetEstablishedSessionCount m
      = Except.ok (m.sessions.filter
          (fun ks => decide (ks.2.GetState = State.Established ∨ ks.2.GetState = State.Game))).length
    ∧ SessionManager.GetEstablishedSessionCount m
      = Except.ok (m.sessions.length
          - (m.sessions.filter (fun ks => decide (ks.2.GetState = State.Init))).length)
    ∧ SessionManager.GetEstablishedSessionCount
        (SessionManager.AddSession SessionMap.empty (some s)).2
      = Except.ok (if s.GetState = State.Init then 0 else 1) := by
  have h1 : SessionManager.GetEstablishedSessionCount m
      = Except.ok (m.sessions.filter
          (fun ks => decide (State.Established.toNat ≤ ks.2.GetState.toNat))).length := by
    unfold SessionManager.GetEstablishedSessionCount
    rw [GetEstablishedSessionCountLoop_of_noNull h]
    simp [SessionMap.sessions]
  have h2 : (fun ks : SessionId × SessionData =>
        decide (State.Established.toNat ≤ ks.2.GetState.toNat))
      = (fun ks => decide (ks.2.GetState = State.Established ∨ ks.2.GetState = State.Game)) := by
    funext ks
    exact decide_eq_decide.2 (established_le_iff _)
  refine ⟨h1, ?_, ?_, ?_⟩
  · rw [h1, h2]
  · rw [h1]
    congr 1
    have h3 : ∀ sel : List (SessionId × SessionData),
        (sel.filter (fun ks => decide (State.Established.toNat ≤ ks.2.GetState.toNat))).length
          + (sel.filter (fun ks => decide (ks.2.GetState = State.Init))).length = sel.length := by
      intro sel
      induction sel with
      | nil => rfl
      | cons ks rest ih =>
        rw [List.filter_cons]
        by_cases hs : State.Established.toNat ≤ ks.2.GetState.toNat
        · have hi : ¬ ks.2.GetState = State.Init := by
            intro hi
            rw [hi] at hs
            exact absurd hs (by decide)
          simp only [hs, decide_True, if_true, List.length_cons]
          rw [List.filter_cons_of_neg (by simp [hi])]
          omega
        · have hi : ks.2.GetState = State.Init := by
            cases hst : ks.2.GetState
            · rfl
            · rw [hst] at hs; exact absurd (by decide) hs
            · rw [hst] at hs; exact absurd (by decide) hs
          simp only [hs, decide_False, Bool.false_eq_true, if_false]
          rw [List.filter_cons_of_pos (by simp [hi])]
          simp only [List.length_cons]
          omega
    have := h3 m.sessions
    omega
  · cases hst : s.GetState <;>
      simp [SessionManager.GetEstablishedSessionCount, SessionManager.AddSession,
        SessionMap.lower_bound, SessionMap.lowerBoundIn, SessionMap.empty, SessionMap.insert,
        SessionMap.insertIn, SessionManager.GetEstablishedSessionCountLoop, hst, State.toNat]

/-- C7 at the scenario: B and C are counted, A is not. -/
theorem C7_GetEstablishedSessionCount_witness :
    NoNullEntry scenario
    ∧ SessionManager.GetEstablishedSessionCount scenario = Except.ok 2
    ∧ SessionManager.GetEstablishedSessionCount
        (SessionManager.AddSession SessionMap.empty (some sessionC)).2 = Except.ok 1 :=
  ⟨by decide,
    (C7_GetEstablishedSessionCount scenario sessionC (by decide)).1.trans rfl,
    (C7_GetEstablishedSessionCount scenario sessionC (by decide)).2.2.2.trans rfl⟩

/-! ## C8: ResetAllReadyFlags and CountReadySessions -/

theorem ResetAllReadyFlagsLoop_of_noNull {l : List Entry} (h : ∀ e ∈ l, e.2 ≠ none) :
    SessionManager.ResetAllReadyFlagsLoop l = (Except.ok (), resetEntries l) := by
  induction l with
  | nil => rfl
  | cons e rest ih =>
    obtain ⟨k1, p⟩ := e
    cases p with
    | none => exact absurd rfl (h (k1, none) (List.mem_cons_self _ _))
    | some s1 =>
      unfold SessionManager.ResetAllReadyFlagsLoop
      rw [ih (fun e he => h e (List.mem_cons_of_mem _ he))]
      rfl

theorem resetEntries_noNull {l : List Entry} (h : ∀ e ∈ l, e.2 ≠ none) :
    ∀ e ∈ resetEntries l, e.2 ≠ none := by
  intro e he
  unfold resetEntries at he
  obtain ⟨e0, he0, rfl⟩ := List.mem_map.1 he
  have := h e0 he0
  cases hp : e0.2 with
  | none => exact absurd hp this
  | some s0 => simp [hp]

theorem resetEntries_idem (l : List Entry) : resetEntries (resetEntries l) = resetEntries l := by
  unfold resetEntries
  rw [List.map_map]
  apply List.map_congr_left
  intro e _
  cases hp : e.2 with
  | none => simp [hp]
  | some s0 => simp [hp, SessionData.ResetReadyFlag]

theorem sessionsOf_resetEntries (l : List Entry) :
    sessionsOf (resetEntries l) = (sessionsOf l).map (fun ks => (ks.1, ks.2.ResetReadyFlag)) := by
  induction l with
  | nil => rfl
  | cons e rest ih =>
    obtain ⟨k1, p⟩ := e
    cases p with
    | none =>
      have h1 : resetEntries ((k1, none) :: rest) = (k1, none) :: resetEntries rest := rfl
      rw [h1, sessionsOf_cons_none, sessionsOf_cons_none, ih]
    | some s1 =>
      have h1 : resetEntries ((k1, some s1) :: rest)
          = (k1, some s1.ResetReadyFlag) :: resetEntries rest := rfl
      rw [h1, sessionsOf_cons_some, sessionsOf_cons_some, ih]
      rfl

theorem CountReadySessionsLoop_of_noNull {l : List Entry} (h : ∀ e ∈ l, e.2 ≠ none)
    (counter : Nat) :
    SessionManager.CountReadySessionsLoop l counter
      = Except.ok (counter + ((sessionsOf l).filter (fun ks => ks.2.IsReady)).length) := by
  induction l generalizing counter with
  | nil => rfl
  | cons e rest ih =>
    obtain ⟨k1, p⟩ := e
    cases p with
    | none => exact absurd rfl (h (k1, none) (List.mem_cons_self _ _))
    | some s1 =>
      have ih1 := ih (fun e he => h e (List.mem_cons_of_mem _ he))
      unfold SessionManager.CountReadySessionsLoop
      rw [sessionsOf_cons_some, List.filter_cons]
      by_cases hs : s1.IsReady = true
      · rw [if_pos hs, ih1]
        simp only [hs, if_true, List.length_cons]
        congr 1
        omega
      · rw [if_neg hs, ih1]
        simp only [hs]
        simp

theorem ResetAllReadyFlags_of_noNull {m : SessionMap} (h : NoNullEntry m) :
    (SessionManager.ResetAllReadyFlags m).1 = Except.ok ()
    ∧ (SessionManager.ResetAllReadyFlags m).2.entries = resetEntries m.entries := by
  unfold SessionManager.ResetAllReadyFlags
  constructor
  · show (SessionManager.ResetAllReadyFlagsLoop m.entries).1 = Except.ok ()
    rw [ResetAllReadyFlagsLoop_of_noNull h]
  · show (SessionManager.ResetAllReadyFlagsLoop m.entries).2 = resetEntries m.entries
    rw [ResetAllReadyFlagsLoop_of_noNull h]

/-- C8: on a registry without an empty pointer, ResetAllReadyFlags returns
normally and CountReadySessions is 0 afterwards, whatever the flags were; a
second ResetAllReadyFlags returns normally and gives the same registry as the
first; the keys are unchanged, and every session is replaced by itself with the
ready flag cleared, all other fields being as they were. -/
theorem C8_ResetAllReadyFlags (m : SessionMap) (h : NoNullEntry m) :
    (SessionManager.ResetAllReadyFlags m).1 = Except.ok ()
    ∧ SessionManager.CountReadySessions (SessionManager.ResetAllReadyFlags m).2 = Except.ok 0
    ∧ SessionManager.ResetAllReadyFlags (SessionManager.ResetAllReadyFlags m).2
        = (Except.ok (), (SessionManager.ResetAllReadyFlags m).2)
    ∧ (SessionManager.ResetAllReadyFlags m).2.keys = m.keys
    ∧ (SessionManager.ResetAllReadyFlags m).2.sessions
        = m.sessions.map (fun ks => (ks.1, { ks.2 with readyFlag := false }))
    ∧ (∀ s : SessionData,
        ({ s with readyFlag := false } : SessionData).id = s.id
        ∧ ({ s with readyFlag := false } : SessionData).state = s.state
        ∧ ({ s with readyFlag := false } : SessionData).playerData = s.playerData
        ∧ ({ s with readyFlag := false } : SessionData).clientAddr = s.clientAddr
        ∧ ({ s with readyFlag := false } : SessionData).socket = s.socket
        ∧ ({ s with readyFlag := false } : SessionData).wantsLobbyMsg = s.wantsLobbyMsg) := by
  have hr := ResetAllReadyFlags_of_noNull h
  have hn : NoNullEntry (SessionManager.ResetAllReadyFlags m).2 := by
    unfold NoNullEntry
    rw [hr.2]
    exact resetEntries_noNull h
  have hr2 := ResetAllReadyFlags_of_noNull hn
  refine ⟨hr.1, ?_, ?_, ?_, ?_, fun s => ⟨rfl, rfl, rfl, rfl, rfl, rfl⟩⟩
  · unfold SessionManager.CountReadySessions
    rw [CountReadySessionsLoop_of_noNull hn, hr.2, sessionsOf_resetEntries]
    congr 1
    rw [Nat.zero_add, List.length_eq_zero, List.filter_eq_nil_iff]
    intro ks hks
    obtain ⟨ks0, _, rfl⟩ := List.mem_map.1 hks
    simp [SessionData.IsReady, SessionData.ResetReadyFlag]
  · refine Prod.ext hr2.1 (SessionMap.ext_entries ?_)
    rw [hr2.2, hr.2, resetEntries_idem]
  · unfold SessionMap.keys
    exact SessionManager.keysOf_ResetAllReadyFlagsLoop m.entries
  · unfold SessionMap.sessions
    rw [hr.2, sessionsOf_resetEntries]
    rfl

/-- C8 at the scenario, where C is ready: one ready session before the reset,
none after it. -/
theorem C8_ResetAllReadyFlags_witness :
    NoNullEntry scenario
    ∧ SessionManager.CountReadySessions scenario = Except.ok 1
    ∧ SessionManager.CountReadySessions (SessionManager.ResetAllReadyFlags scenario).2
        = Except.ok 0 :=
  ⟨by decide, rfl, (C8_ResetAllReadyFlags scenario (by decide)).2.1⟩

/-! ## C9 and C10: GetSessionByPlayerName -/

theorem find_min {q : SessionId × SessionData → Bool} {l : List (SessionId × SessionData)}
    (hl : (l.map Prod.fst).Pairwise (fun a b => a < b)) {ks : SessionId × SessionData}
    (h : l.find? q = some ks) :
    ks ∈ l ∧ q ks = true ∧ ∀ ks1 ∈ l, q ks1 = true → ks.1 ≤ ks1.1 := by
  induction l with
  | nil => simp at h
  | cons x rest ih =>
    rw [List.map_cons, List.pairwise_cons] at hl
    rw [List.find?_cons] at h
    cases hq : q x with
    | true =>
      rw [hq] at h
      cases h
      refine ⟨List.mem_cons_self _ _, hq, ?_⟩
      intro ks1 h1 _
      rcases List.mem_cons.1 h1 with h1 | h1
      · rw [h1]
      · exact le_of_lt (hl.1 ks1.1 (List.mem_map.2 ⟨ks1, h1, rfl⟩))
    | false =>
      rw [hq] at h
      obtain ⟨h1, h2, h3⟩ := ih hl.2 h
      refine ⟨List.mem_cons_of_mem _ h1, h2, ?_⟩
      intro ks1 hk1 hq1
      rcases List.mem_cons.1 hk1 with hk1 | hk1
      · rw [hk1, hq] at hq1
        exact absurd hq1 (by decide)
      · exact h3 ks1 hk1 hq1

theorem GetSessionByPlayerNameLoop_fault (playerName : String) {l : List Entry}
    (hl : (keysOf l).Pairwise (fun a b => a < b)) (hn : ∀ e ∈ l, e.2 ≠ none)
    {k : SessionId} {s : SessionData} (hmem : (k, some s) ∈ l)
    (hstate : s.GetState ≠ State.Init) (hpd : s.GetPlayerData = none)
    (hbefore : ∀ k1 s1, (k1, some s1) ∈ l → k1 < k → matchesName playerName s1 = false) :
    SessionManager.GetSessionByPlayerNameLoop playerName l
      = Except.error Fault.ERR_NET_INVALID_SESSION := by
  induction l with
  | nil => simp at hmem
  | cons e rest ih =>
    obtain ⟨k1, p⟩ := e
    cases p with
    | none => exact absurd rfl (hn (k1, none) (List.mem_cons_self _ _))
    | some s1 =>
      rw [keysOf_cons, List.pairwise_cons] at hl
      unfold SessionManager.GetSessionByPlayerNameLoop
      rcases List.mem_cons.1 hmem with hm | hm
      · have hs : s1 = s := by
          have := congrArg Prod.snd hm
          simp at this
          exact this.symm
        rw [hs, if_pos hstate, hpd]
      · have hlt : k1 < k := hl.1 k (mem_keysOf.2 ⟨some s, hm⟩)
        have ihr := ih hl.2 (fun e he => hn e (List.mem_cons_of_mem _ he)) hm
          (fun k2 s2 h2 hk2 => hbefore k2 s2 (List.mem_cons_of_mem _ h2) hk2)
        by_cases hs1 : s1.GetState ≠ State.Init
        · rw [if_pos hs1]
          cases hp1 : s1.GetPlayerData with
          | none => rfl
          | some p1 =>
            have hb := hbefore k1 s1 (List.mem_cons_self _ _) hlt
            unfold matchesName at hb
            rw [hp1] at hb
            have hne : ¬ p1.GetName = playerName := by
              intro hc
              simp [hs1, hc] at hb
            simp only [hne, if_false]
            exact ihr
        · rw [if_neg hs1]
          exact ihr

/-- C9 (as amended): on a registry without an empty pointer that holds, under
id `k`, a session whose state is not Init and whose PlayerData is absent,
GetSessionByPlayerName ends with ERR_NET_INVALID_SESSION for every name that no
session stored under a smaller id matches (a match being a session not in state
Init whose PlayerData carries the name). -/
theorem C9_GetSessionByPlayerName_fault (m : SessionMap) (playerName : String)
    (k : SessionId) (s : SessionData) (h : NoNullEntry m)
    (hmem : (k, s) ∈ m.sessions)
    (hstate : s.GetState ≠ State.Init) (hpd : s.GetPlayerData = none)
    (hbefore : ∀ ks ∈ m.sessions, ks.1 < k → matchesName playerName ks.2 = false) :
    SessionManager.GetSessionByPlayerName m playerName
      = Except.error Fault.ERR_NET_INVALID_SESSION :=
  GetSessionByPlayerNameLoop_fault playerName m.ascending h (mem_sessionsOf.1 hmem) hstate hpd
    (fun k1 s1 h1 hk1 => hbefore (k1, s1) (mem_sessionsOf.2 h1) hk1)

/-- C9 at the registry holding B (alice) and the faulty session E: looking up
bob reaches E and fails. -/
theorem C9_GetSessionByPlayerName_fault_witness :
    NoNullEntry registryBE
    ∧ (5, sessionE) ∈ registryBE.sessions
    ∧ sessionE.GetState ≠ State.Init
    ∧ sessionE.GetPlayerData = none
    ∧ SessionManager.GetSessionByPlayerName registryBE "bob"
        = Except.error Fault.ERR_NET_INVALID_SESSION :=
  ⟨by decide, by decide, by decide, rfl,
    C9_GetSessionByPlayerName_fault registryBE "bob" 5 sessionE (by decide) (by decide)
      (by decide) rfl (by decide)⟩

/-- C9 as stated fails: the registry holds E, which is Established and has no
PlayerData, yet the lookup of alice returns B, stored before E, and raises
nothing. -/
theorem C9_counterexample :
    (5, sessionE) ∈ registryBE.sessions
    ∧ sessionE.GetState ≠ State.Init
    ∧ sessionE.GetPlayerData = none
    ∧ SessionManager.GetSessionByPlayerName registryBE "alice" = Except.ok (some sessionB)
    ∧ SessionManager.GetSessionByPlayerName registryBE "alice"
        ≠ Except.error Fault.ERR_NET_INVALID_SESSION := by
  have h : SessionManager.GetSessionByPlayerName registryBE "alice"
      = Except.ok (some sessionB) := rfl
  refine ⟨by decide, by decide, rfl, h, ?_⟩
  rw [h]
  intro hc
  cases hc

theorem matchesName_iff (playerName : String) (s : SessionData) :
    matchesName playerName s = true
      ↔ s.GetState ≠ State.Init ∧ ∃ p, s.GetPlayerData = some p ∧ p.GetName = playerName := by
  unfold matchesName
  cases hp : s.GetPlayerData with
  | none => simp
  | some p => simp

theorem GetSessionByPlayerNameLoop_of_playerData (playerName : String) {l : List Entry}
    (hn : ∀ e ∈ l, e.2 ≠ none)
    (hp : ∀ k s, (k, some s) ∈ l → s.GetState ≠ State.Init → s.GetPlayerData ≠ none) :
    SessionManager.GetSessionByPlayerNameLoop playerName l
      = Except.ok (((sessionsOf l).find? (fun ks => matchesName playerName ks.2)).map Prod.snd) := by
  induction l with
  | nil => rfl
  | cons e rest ih =>
    obtain ⟨k1, p⟩ := e
    cases p with
    | none => exact absurd rfl (hn (k1, none) (List.mem_cons_self _ _))
    | some s1 =>
      have ihr := ih (fun e he => hn e (List.mem_cons_of_mem _ he))
        (fun k s hks => hp k s (List.mem_cons_of_mem _ hks))
      unfold SessionManager.GetSessionByPlayerNameLoop
      rw [sessionsOf_cons_some, List.find?_cons]
      by_cases hs1 : s1.GetState ≠ State.Init
      · rw [if_pos hs1]
        cases hp1 : s1.GetPlayerData with
        | none => exact absurd hp1 (hp k1 s1 (List.mem_cons_self _ _) hs1)
        | some p1 =>
          by_cases hname : p1.GetName = playerName
          · have hm : matchesName playerName s1 = true :=
              (matchesName_iff playerName s1).2 ⟨hs1, p1, hp1, hname⟩
            simp only [hname, if_true, hm]
            rfl
          · have hm : matchesName playerName s1 = false := by
              rw [← Bool.not_eq_true, matchesName_iff]
              rintro ⟨_, p2, hp2, hn2⟩
              rw [hp1] at hp2
              cases hp2
              exact hname hn2
            simp only [hname, if_false, hm]
            exact ihr
      · have hm : matchesName playerName s1 = false := by
          rw [← Bool.not_eq_true, matchesName_iff]
          rintro ⟨h1, _⟩
          exact hs1 h1
        rw [if_neg hs1]
        simp only [hm]
        exact ihr

/-- C10: on a registry without an empty pointer in which every session that is
not in state Init has PlayerData, GetSessionByPlayerName returns normally; its
result is the first session, in ascending order of the ids they are stored
under, that is not in state Init and whose PlayerData carries the name, so a
returned session is never in state Init, carries the name, and is stored under
the smallest id among the matching sessions; the result is empty exactly when
no session matches. -/
theorem C10_GetSessionByPlayerName (m : SessionMap) (playerName : String)
    (h : NoNullEntry m)
    (hp : ∀ ks ∈ m.sessions, ks.2.GetState ≠ State.Init → ks.2.GetPlayerData ≠ none) :
    SessionManager.GetSessionByPlayerName m playerName
      = Except.ok ((m.sessions.find? (fun ks => matchesName playerName ks.2)).map Prod.snd)
    ∧ (∀ s, SessionManager.GetSessionByPlayerName m playerName = Except.ok (some s) →
        s.GetState ≠ State.Init
        ∧ (∃ p, s.GetPlayerData = some p ∧ p.GetName = playerName)
        ∧ ∃ k, (k, s) ∈ m.sessions
            ∧ ∀ ks ∈ m.sessions, matchesName playerName ks.2 = true → k ≤ ks.1)
    ∧ (SessionManager.GetSessionByPlayerName m playerName = Except.ok none
        ↔ ∀ ks ∈ m.sessions, matchesName playerName ks.2 = false) := by
  have h1 : SessionManager.GetSessionByPlayerName m playerName
      = Except.ok ((m.sessions.find? (fun ks => matchesName playerName ks.2)).map Prod.snd) :=
    GetSessionByPlayerNameLoop_of_playerData playerName h
      (fun k s hks => hp (k, s) (mem_sessionsOf.2 hks))
  refine ⟨h1, ?_, ?_⟩
  · intro s hs
    rw [h1] at hs
    cases hf : m.sessions.find? (fun ks => matchesName playerName ks.2) with
    | none => rw [hf] at hs; cases hs
    | some ks =>
      rw [hf] at hs
      have hks : ks.2 = s := by
        simp only [Option.map_some'] at hs
        cases hs
        rfl
      obtain ⟨hmem, hq, hmin⟩ := find_min (sessions_ascending m) hf
      have hq2 := (matchesName_iff playerName ks.2).1 hq
      rw [hks] at hq2
      refine ⟨hq2.1, hq2.2, ks.1, ?_, hmin⟩
      rw [← hks]
      exact hmem
  · rw [h1]
    constructor
    · intro hnone ks hks
      cases hf : m.sessions.find? (fun ks => matchesName playerName ks.2) with
      | none =>
        have := List.find?_eq_none.1 hf ks hks
        simpa using this
      | some ks1 => rw [hf] at hnone; cases hnone
    · intro hall
      have : m.sessions.find? (fun ks => matchesName playerName ks.2) = none := by
        rw [List.find?_eq_none]
        intro ks hks
        simp [hall ks hks]
      rw [this]
      rfl

/-- C10 at the scenario and at the registry holding F and B: the lookup of alice
returns B in both, although F, stored under the smaller id, is an Init session
whose PlayerData is named alice; the lookup of carol is empty. -/
theorem C10_GetSessionByPlayerName_witness :
    NoNullEntry registryFB
    ∧ (∀ ks ∈ registryFB.sessions, ks.2.GetState ≠ State.Init → ks.2.GetPlayerData ≠ none)
    ∧ SessionManager.GetSessionByPlayerName registryFB "alice" = Except.ok (some sessionB)
    ∧ SessionManager.GetSessionByPlayerName registryFB "carol" = Except.ok none
    ∧ SessionManager.GetSessionByPlayerName scenario "alice" = Except.ok (some sessionB) :=
  ⟨by decide, by decide,
    (C10_GetSessionByPlayerName registryFB "alice" (by decide) (by decide)).1.trans rfl,
    (C10_GetSessionByPlayerName registryFB "carol" (by decide) (by decide)).1.trans rfl,
    (C10_GetSessionByPlayerName scenario "alice" (by decide) (by decide)).1.trans rfl⟩

/-! ## C11: GetPlayerDataList -/

theorem gameFaulty_iff (s : SessionData) :
    gameFaulty s = true ↔ s.GetState = State.Game
      ∧ (s.GetPlayerData = none ∨ ∃ p, s.GetPlayerData = some p ∧ p.GetName.isEmpty = true) := by
  unfold gameFaulty
  cases hp : s.GetPlayerData with
  | none => simp
  | some p => simp

theorem GetPlayerDataListLoop_of_noNull {l : List Entry} (hn : ∀ e ∈ l, e.2 ≠ none)
    (playerList : List PlayerData) :
    SessionManager.GetPlayerDataListLoop l playerList
      = if (sessionsOf l).any (fun ks => gameFaulty ks.2) = true
        then Except.error Fault.ERR_NET_INVALID_SESSION
        else Except.ok (playerList ++ gamePlayersOf (sessionsOf l)) := by
  induction l generalizing playerList with
  | nil => simp [SessionManager.GetPlayerDataListLoop, sessionsOf, gamePlayersOf]
  | cons e rest ih =>
    obtain ⟨k1, p⟩ := e
    cases p with
    | none => exact absurd rfl (hn (k1, none) (List.mem_cons_self _ _))
    | some s1 =>
      have ihr := ih (fun e he => hn e (List.mem_cons_of_mem _ he))
      unfold SessionManager.GetPlayerDataListLoop
      rw [sessionsOf_cons_some, List.any_cons]
      by_cases hs : s1.GetState = State.Game
      · rw [if_pos hs]
        cases hp : s1.GetPlayerData with
        | none =>
          have hf : gameFaulty s1 = true := (gameFaulty_iff s1).2 ⟨hs, Or.inl hp⟩
          simp [hf]
        | some p1 =>
          by_cases he : p1.GetName.isEmpty = true
          · have hf : gameFaulty s1 = true := (gameFaulty_iff s1).2 ⟨hs, Or.inr ⟨p1, hp, he⟩⟩
            simp [hf, he]
          · have hf : gameFaulty s1 = false := by
              rw [← Bool.not_eq_true, gameFaulty_iff]
              rintro ⟨_, h1 | ⟨p2, h2, h3⟩⟩
              · rw [hp] at h1; cases h1
              · rw [hp] at h2; cases h2; exact he h3
            simp only [he, hf, Bool.false_or]
            rw [ihr]
            have hg : gamePlayersOf ((k1, s1) :: sessionsOf rest)
                = p1 :: gamePlayersOf (sessionsOf rest) := by
              simp [gamePlayersOf, List.filter_cons, hs, hp]
            rw [hg, List.append_assoc]
            rfl
      · have hf : gameFaulty s1 = false := by
          rw [← Bool.not_eq_true, gameFaulty_iff]
          rintro ⟨h1, _⟩
          exact hs h1
        rw [if_neg hs, ihr]
        have hg : gamePlayersOf ((k1, s1) :: sessionsOf rest)
            = gamePlayersOf (sessionsOf rest) := by
          simp [gamePlayersOf, List.filter_cons, hs]
        simp only [hf, Bool.false_or, hg]

theorem gamePlayersOf_map_some {sel : List (SessionId × SessionData)}
    (h : sel.any (fun ks => gameFaulty ks.2) = false) :
    (gamePlayersOf sel).map some
      = (sel.filter (fun ks => decide (ks.2.GetState = State.Game))).map
          (fun ks => ks.2.GetPlayerData) := by
  induction sel with
  | nil => rfl
  | cons ks rest ih =>
    rw [List.any_cons, Bool.or_eq_false_iff] at h
    have ihr := ih h.2
    unfold gamePlayersOf at ihr ⊢
    rw [List.filter_cons]
    by_cases hs : ks.2.GetState = State.Game
    · simp only [hs, decide_True, if_true, List.map_cons]
      cases hp : ks.2.GetPlayerData with
      | none =>
        have : gameFaulty ks.2 = true := (gameFaulty_iff ks.2).2 ⟨hs, Or.inl hp⟩
        rw [this] at h
        exact absurd h.1 (by decide)
      | some p1 =>
        simp only [List.filterMap_cons, hp, List.map_cons]
        rw [ihr]
    · simp only [hs, decide_False]
      exact ihr

/-- C11: on a registry without an empty pointer, GetPlayerDataList ends with
ERR_NET_INVALID_SESSION exactly when some session in state Game has no
PlayerData or PlayerData with an empty name; otherwise it returns the PlayerData
of the sessions in state Game, one element for each such session, in ascending
order of the ids they are stored under, and nothing of the other sessions. -/
theorem C11_GetPlayerDataList (m : SessionMap) (h : NoNullEntry m) :
    (SessionManager.GetPlayerDataList m = Except.error Fault.ERR_NET_INVALID_SESSION
      ↔ ∃ ks ∈ m.sessions, ks.2.GetState = State.Game
          ∧ (ks.2.GetPlayerData = none
              ∨ ∃ p, ks.2.GetPlayerData = some p ∧ p.GetName.isEmpty = true))
    ∧ ((¬ ∃ ks ∈ m.sessions, ks.2.GetState = State.Game
          ∧ (ks.2.GetPlayerData = none
              ∨ ∃ p, ks.2.GetPlayerData = some p ∧ p.GetName.isEmpty = true)) →
        ∃ players, SessionManager.GetPlayerDataList m = Except.ok players
          ∧ players.map some
            = (m.sessions.filter (fun ks => decide (ks.2.GetState = State.Game))).map
                (fun ks => ks.2.GetPlayerData)) := by
  have h1 : SessionManager.GetPlayerDataListLoop m.entries []
      = if m.sessions.any (fun ks => gameFaulty ks.2) = true
        then Except.error Fault.ERR_NET_INVALID_SESSION
        else Except.ok ([] ++ gamePlayersOf m.sessions) := GetPlayerDataListLoop_of_noNull h []
  have hany : (m.sessions.any (fun ks => gameFaulty ks.2) = true)
      ↔ ∃ ks ∈ m.sessions, ks.2.GetState = State.Game
          ∧ (ks.2.GetPlayerData = none
              ∨ ∃ p, ks.2.GetPlayerData = some p ∧ p.GetName.isEmpty = true) := by
    rw [List.any_eq_true]
    constructor
    · rintro ⟨ks, hks, hf⟩
      exact ⟨ks, hks, (gameFaulty_iff ks.2).1 hf⟩
    · rintro ⟨ks, hks, hf⟩
      exact ⟨ks, hks, (gameFaulty_iff ks.2).2 hf⟩
  unfold SessionManager.GetPlayerDataList
  rw [h1]
  constructor
  · constructor
    · intro heq
      by_contra hno
      rw [← hany] at hno
      rw [if_neg hno] at heq
      cases heq
    · intro hex
      rw [if_pos (hany.2 hex)]
  · intro hno
    rw [← hany] at hno
    rw [if_neg hno]
    refine ⟨gamePlayersOf m.sessions, by simp [SessionMap.sessions], ?_⟩
    exact gamePlayersOf_map_some (by simpa using hno)

/-- C11 at the scenario: the list is exactly the PlayerData of C (bob). -/
theorem C11_GetPlayerDataList_witness :
    NoNullEntry scenario
    ∧ SessionManager.GetPlayerDataList scenario = Except.ok [⟨20, "bob"⟩]
    ∧ ∃ players, SessionManager.GetPlayerDataList scenario = Except.ok players
        ∧ players.map some
          = (scenario.sessions.filter (fun ks => decide (ks.2.GetState = State.Game))).map
              (fun ks => ks.2.GetPlayerData) :=
  ⟨by decide, rfl, (C11_GetPlayerDataList scenario (by decide)).2 (by decide)⟩

/-! ## C12: GetSessionByUniquePlayerId -/

theorem matchesUniqueId_iff (uniqueId : Nat) (initSessions : Bool) (s : SessionData) :
    matchesUniqueId uniqueId initSessions s = true
      ↔ (initSessions = true ∨ s.GetState ≠ State.Init)
        ∧ ∃ p, s.GetPlayerData = some p ∧ p.GetUniqueId = uniqueId := by
  unfold matchesUniqueId
  cases hp : s.GetPlayerData with
  | none => simp
  | some p => simp

theorem GetSessionByUniquePlayerIdLoop_of_noNull (uniqueId : Nat) (initSessions : Bool)
    {l : List Entry} (hn : ∀ e ∈ l, e.2 ≠ none) :
    SessionManager.GetSessionByUniquePlayerIdLoop uniqueId initSessions l
      = Except.ok (((sessionsOf l).find?
          (fun ks => matchesUniqueId uniqueId initSessions ks.2)).map Prod.snd) := by
  induction l with
  | nil => rfl
  | cons e rest ih =>
    obtain ⟨k1, p⟩ := e
    cases p with
    | none => exact absurd rfl (hn (k1, none) (List.mem_cons_self _ _))
    | some s1 =>
      have ihr := ih (fun e he => hn e (List.mem_cons_of_mem _ he))
      unfold SessionManager.GetSessionByUniquePlayerIdLoop
      rw [sessionsOf_cons_some, List.find?_cons]
      by_cases hs1 : initSessions = true ∨ s1.GetState ≠ State.Init
      · rw [if_pos hs1]
        cases hp1 : s1.GetPlayerData with
        | none =>
          have hm : matchesUniqueId uniqueId initSessions s1 = false := by
            rw [← Bool.not_eq_true, matchesUniqueId_iff]
            rintro ⟨_, p2, hp2, _⟩
            rw [hp1] at hp2
            cases hp2
          simp only [hm]
          exact ihr
        | some p1 =>
          by_cases hid : p1.GetUniqueId = uniqueId
          · have hm : matchesUniqueId uniqueId initSessions s1 = true :=
              (matchesUniqueId_iff uniqueId initSessions s1).2 ⟨hs1, p1, hp1, hid⟩
            simp only [hid, if_true, hm]
            rfl
          · have hm : matchesUniqueId uniqueId initSessions s1 = false := by
              rw [← Bool.not_eq_true, matchesUniqueId_iff]
              rintro ⟨_, p2, hp2, hn2⟩
              rw [hp1] at hp2
              cases hp2
              exact hid hn2
            simp only [hid, if_false, hm]
            exact ihr
      · have hm : matchesUniqueId uniqueId initSessions s1 = false := by
          rw [← Bool.not_eq_true, matchesUniqueId_iff]
          rintro ⟨h1, _⟩
          exact hs1 h1
        rw [if_neg hs1]
        simp only [hm]
        exact ihr

/-- C12: on a registry without an empty pointer, GetSessionByUniquePlayerId
returns normally for every unique id and flag; its result is the first session,
in ascending order of the ids they are stored under, that has PlayerData with
that unique id and is not in state Init unless the flag is set, so a returned
session is stored under the smallest id among the matching ones; the result is
empty exactly when no session matches; sessions without PlayerData never match
and raise nothing. -/
theorem C12_GetSessionByUniquePlayerId (m : SessionMap) (uniqueId : Nat)
    (initSessions : Bool) (h : NoNullEntry m) :
    SessionManager.GetSessionByUniquePlayerId m uniqueId initSessions
      = Except.ok ((m.sessions.find?
          (fun ks => matchesUniqueId uniqueId initSessions ks.2)).map Prod.snd)
    ∧ (∀ s, SessionManager.GetSessionByUniquePlayerId m uniqueId initSessions
          = Except.ok (some s) →
        (initSessions = true ∨ s.GetState ≠ State.Init)
        ∧ (∃ p, s.GetPlayerData = some p ∧ p.GetUniqueId = uniqueId)
        ∧ ∃ k, (k, s) ∈ m.sessions
            ∧ ∀ ks ∈ m.sessions,
                matchesUniqueId uniqueId initSessions ks.2 = true → k ≤ ks.1)
    ∧ (SessionManager.GetSessionByUniquePlayerId m uniqueId initSessions = Except.ok none
        ↔ ∀ ks ∈ m.sessions, matchesUniqueId uniqueId initSessions ks.2 = false)
    ∧ (∀ s, s.GetPlayerData = none → matchesUniqueId uniqueId initSessions s = false) := by
  have h1 : SessionManager.GetSessionByUniquePlayerId m uniqueId initSessions
      = Except.ok ((m.sessions.find?
          (fun ks => matchesUniqueId uniqueId initSessions ks.2)).map Prod.snd) :=
    GetSessionByUniquePlayerIdLoop_of_noNull uniqueId initSessions h
  refine ⟨h1, ?_, ?_, ?_⟩
  · intro s hs
    rw [h1] at hs
    cases hf : m.sessions.find? (fun ks => matchesUniqueId uniqueId initSessions ks.2) with
    | none => rw [hf] at hs; cases hs
    | some ks =>
      rw [hf] at hs
      have hks : ks.2 = s := by
        simp only [Option.map_some'] at hs
        cases hs
        rfl
      obtain ⟨hmem, hq, hmin⟩ := find_min (sessions_ascending m) hf
      have hq2 := (matchesUniqueId_iff uniqueId initSessions ks.2).1 hq
      rw [hks] at hq2
      refine ⟨hq2.1, hq2.2, ks.1, ?_, hmin⟩
      rw [← hks]
      exact hmem
  · rw [h1]
    constructor
    · intro hnone ks hks
      cases hf : m.sessions.find? (fun ks => matchesUniqueId uniqueId initSessions ks.2) with
      | none =>
        have := List.find?_eq_none.1 hf ks hks
        simpa using this
      | some ks1 => rw [hf] at hnone; cases hnone
    · intro hall
      have : m.sessions.find? (fun ks => matchesUniqueId uniqueId initSessions ks.2) = none := by
        rw [List.find?_eq_none]
        intro ks hks
        simp [hall ks hks]
      rw [this]
      rfl
  · intro s hs
    unfold matchesUniqueId
    rw [hs]
    simp

/-- C12 at the registry holding F (Init, unique id 11) and B (unique id 10): F
is found only when Init sessions are included; at the scenario session A, which
has no PlayerData, is passed over. -/
theorem C12_GetSessionByUniquePlayerId_witness :
    NoNullEntry registryFB
    ∧ SessionManager.GetSessionByUniquePlayerId registryFB 11 true = Except.ok (some sessionF)
    ∧ SessionManager.GetSessionByUniquePlayerId registryFB 11 false = Except.ok none
    ∧ SessionManager.GetSessionByUniquePlayerId scenario 20 true = Except.ok (some sessionC) :=
  ⟨by decide,
    (C12_GetSessionByUniquePlayerId registryFB 11 true (by decide)).1.trans rfl,
    (C12_GetSessionByUniquePlayerId registryFB 11 false (by decide)).1.trans rfl,
    (C12_GetSessionByUniquePlayerId scenario 20 true (by decide)).1.trans rfl⟩

/-! ## C13: IsPlayerConnected -/

/-- C13: for every registry, IsPlayerConnected by name returns true exactly when
GetSessionByPlayerName returns a session with PlayerData, and returns false
exactly when that lookup returns no session or one without PlayerData; the same
holds for IsPlayerConnected by unique id and GetSessionByUniquePlayerId called
with the default flag; a fault of the lookup is passed on.  In the scenario the
unique id 10 is connected and 99 is not, whatever the default flag is. -/
theorem C13_IsPlayerConnected (m : SessionMap) (playerName : String) (uniqueId : Nat)
    (dflt : Bool) :
    (SessionManager.IsPlayerConnected_name m playerName = Except.ok true
      ↔ ∃ s, SessionManager.GetSessionByPlayerName m playerName = Except.ok (some s)
          ∧ s.GetPlayerData ≠ none)
    ∧ (SessionManager.IsPlayerConnected_name m playerName = Except.ok false
      ↔ SessionManager.GetSessionByPlayerName m playerName = Except.ok none
        ∨ ∃ s, SessionManager.GetSessionByPlayerName m playerName = Except.ok (some s)
            ∧ s.GetPlayerData = none)
    ∧ (SessionManager.IsPlayerConnected_uniqueId dflt m uniqueId = Except.ok true
      ↔ ∃ s, SessionManager.GetSessionByUniquePlayerId m uniqueId dflt = Except.ok (some s)
          ∧ s.GetPlayerData ≠ none)
    ∧ (SessionManager.IsPlayerConnected_uniqueId dflt m uniqueId = Except.ok false
      ↔ SessionManager.GetSessionByUniquePlayerId m uniqueId dflt = Except.ok none
        ∨ ∃ s, SessionManager.GetSessionByUniquePlayerId m uniqueId dflt = Except.ok (some s)
            ∧ s.GetPlayerData = none)
    ∧ (∀ f, SessionManager.IsPlayerConnected_name m playerName = Except.error f
      ↔ SessionManager.GetSessionByPlayerName m playerName = Except.error f)
    ∧ (∀ f, SessionManager.IsPlayerConnected_uniqueId dflt m uniqueId = Except.error f
      ↔ SessionManager.GetSessionByUniquePlayerId m uniqueId dflt = Except.error f)
    ∧ SessionManager.IsPlayerConnected_uniqueId dflt scenario 10 = Except.ok true
    ∧ SessionManager.IsPlayerConnected_uniqueId dflt scenario 99 = Except.ok false := by
  refine ⟨?_, ?_, ?_, ?_, ?_, ?_, ?_, ?_⟩
  · unfold SessionManager.IsPlayerConnected_name
    cases hl : SessionManager.GetSessionByPlayerName m playerName with
    | error f => simp
    | ok r =>
      cases r with
      | none => simp
      | some s => cases hp : s.GetPlayerData <;> simp [hp]
  · unfold SessionManager.IsPlayerConnected_name
    cases hl : SessionManager.GetSessionByPlayerName m playerName with
    | error f => simp
    | ok r =>
      cases r with
      | none => simp
      | some s => cases hp : s.GetPlayerData <;> simp [hp]
  · unfold SessionManager.IsPlayerConnected_uniqueId
    cases hl : SessionManager.GetSessionByUniquePlayerId m uniqueId dflt with
    | error f => simp
    | ok r =>
      cases r with
      | none => simp
      | some s => cases hp : s.GetPlayerData <;> simp [hp]
  · unfold SessionManager.IsPlayerConnected_uniqueId
    cases hl : SessionManager.GetSessionByUniquePlayerId m uniqueId dflt with
    | error f => simp
    | ok r =>
      cases r with
      | none => simp
      | some s => cases hp : s.GetPlayerData <;> simp [hp]
  · intro f
    unfold SessionManager.IsPlayerConnected_name
    cases hl : SessionManager.GetSessionByPlayerName m playerName with
    | error f1 => simp
    | ok r =>
      cases r with
      | none => simp
      | some s => simp
  · intro f
    unfold SessionManager.IsPlayerConnected_uniqueId
    cases hl : SessionManager.GetSessionByUniquePlayerId m uniqueId dflt with
    | error f1 => simp
    | ok r =>
      cases r with
      | none => simp
      | some s => simp
  · cases dflt <;> rfl
  · cases dflt <;> rfl

/-! ## C14: SetSessionPlayerData -/

theorem modifyIn_of_not_mem {k : SessionId} (f : SessionData → SessionData) {l : List Entry}
    (hk : k ∉ keysOf l) : SessionMap.modifyIn k f l = l := by
  unfold SessionMap.modifyIn
  conv_rhs => rw [← List.map_id l]
  apply List.map_congr_left
  intro e he
  have : e.1 ≠ k := by
    intro h
    exact hk (mem_keysOf.2 ⟨e.2, by rw [← h]; exact he⟩)
  simp [this]

theorem sessionsOf_modifyIn (k : SessionId) (f : SessionData → SessionData) (l : List Entry) :
    sessionsOf (SessionMap.modifyIn k f l)
      = (sessionsOf l).map (fun ks => if ks.1 = k then (ks.1, f ks.2) else ks) := by
  induction l with
  | nil => rfl
  | cons e rest ih =>
    obtain ⟨k1, p⟩ := e
    have h1 : SessionMap.modifyIn k f ((k1, p) :: rest)
        = (if k1 = k then (k1, p.map f) else (k1, p)) :: SessionMap.modifyIn k f rest := rfl
    rw [h1]
    cases p with
    | none =>
      have h2 : (if k1 = k then (k1, Option.map f none) else (k1, (none : SessionPtr)))
          = (k1, none) := by split_ifs <;> rfl
      rw [h2, sessionsOf_cons_none, sessionsOf_cons_none, ih]
    | some s1 =>
      by_cases hk : k1 = k
      · rw [if_pos hk]
        have h2 : (k1, Option.map f (some s1)) = ((k1, some (f s1)) : Entry) := rfl
        rw [h2, sessionsOf_cons_some, sessionsOf_cons_some, ih, List.map_cons]
        simp [hk]
      · rw [if_neg hk, sessionsOf_cons_some, sessionsOf_cons_some, ih, List.map_cons]
        simp [hk]

theorem findIn_some_of_noNull {k : SessionId} {l : List Entry} (hn : ∀ e ∈ l, e.2 ≠ none) :
    SessionMap.findIn k l ≠ some none := by
  induction l with
  | nil => simp [SessionMap.findIn]
  | cons e rest ih =>
    unfold SessionMap.findIn
    split_ifs with h
    · intro hc
      exact hn e (List.mem_cons_self _ _) (Option.some.inj hc)
    · exact ih (fun e he => hn e (List.mem_cons_of_mem _ he))

theorem findIn_modifyIn (k : SessionId) (f : SessionData → SessionData) (l : List Entry)
    (j : SessionId) :
    SessionMap.findIn j (SessionMap.modifyIn k f l)
      = (SessionMap.findIn j l).map (fun p => if j = k then p.map f else p) := by
  induction l with
  | nil => rfl
  | cons e rest ih =>
    have h1 : SessionMap.modifyIn k f (e :: rest)
        = (if e.1 = k then (e.1, e.2.map f) else e) :: SessionMap.modifyIn k f rest := rfl
    rw [h1]
    unfold SessionMap.findIn
    by_cases hk : e.1 = k
    · rw [if_pos hk]
      by_cases hj : e.1 = j
      · simp [hj, ← hk]
      · simp only [hj, if_false]
        exact ih
    · rw [if_neg hk]
      by_cases hj : e.1 = j
      · have : ¬ j = k := fun h => hk (hj.trans h)
        simp [hj, this]
      · simp only [hj, if_false]
        exact ih

theorem SetSessionPlayerData_entries {m : SessionMap} (h : NoNullEntry m) (id : SessionId)
    (playerData : Option PlayerData) :
    (SessionManager.SetSessionPlayerData m id playerData).1 = Except.ok ()
    ∧ (SessionManager.SetSessionPlayerData m id playerData).2.entries
      = SessionMap.modifyIn id (fun s => s.SetPlayerData playerData) m.entries := by
  unfold SessionManager.SetSessionPlayerData
  cases hf : m.find id with
  | none =>
    refine ⟨rfl, ?_⟩
    exact (modifyIn_of_not_mem _ (findIn_eq_none.1 hf)).symm
  | some p =>
    cases p with
    | none => exact absurd hf (findIn_some_of_noNull h)
    | some s => exact ⟨rfl, rfl⟩

/-- C14: on a registry without an empty pointer, SetSessionPlayerData returns
normally; when the id is not a key the registry is unchanged; otherwise the
session stored under the id is replaced by itself with the given PlayerData, all
its other fields being as they were, and the keys and every other session are
unchanged. -/
theorem C14_SetSessionPlayerData (m : SessionMap) (id : SessionId)
    (playerData : Option PlayerData) (h : NoNullEntry m) :
    (SessionManager.SetSessionPlayerData m id playerData).1 = Except.ok ()
    ∧ (id ∉ m.keys → (SessionManager.SetSessionPlayerData m id playerData).2 = m)
    ∧ (SessionManager.SetSessionPlayerData m id playerData).2.keys = m.keys
    ∧ (SessionManager.SetSessionPlayerData m id playerData).2.sessions
        = m.sessions.map
            (fun ks => if ks.1 = id then (ks.1, { ks.2 with playerData := playerData }) else ks)
    ∧ SessionManager.GetSessionById (SessionManager.SetSessionPlayerData m id playerData).2 id
        = (SessionManager.GetSessionById m id).map
            (fun s => { s with playerData := playerData })
    ∧ (∀ j, j ≠ id →
        SessionManager.GetSessionById (SessionManager.SetSessionPlayerData m id playerData).2 j
          = SessionManager.GetSessionById m j)
    ∧ (∀ s : SessionData,
        ({ s with playerData := playerData } : SessionData).id = s.id
        ∧ ({ s with playerData := playerData } : SessionData).state = s.state
        ∧ ({ s with playerData := playerData } : SessionData).readyFlag = s.readyFlag
        ∧ ({ s with playerData := playerData } : SessionData).clientAddr = s.clientAddr
        ∧ ({ s with playerData := playerData } : SessionData).socket = s.socket
        ∧ ({ s with playerData := playerData } : SessionData).wantsLobbyMsg = s.wantsLobbyMsg) := by
  have he := SetSessionPlayerData_entries h id playerData
  have hfind : ∀ j, (SessionManager.SetSessionPlayerData m id playerData).2.find j
      = (m.find j).map
          (fun p => if j = id then p.map (fun s => s.SetPlayerData playerData) else p) := by
    intro j
    unfold SessionMap.find
    rw [he.2]
    exact findIn_modifyIn id _ m.entries j
  refine ⟨he.1, ?_, ?_, ?_, ?_, ?_, fun s => ⟨rfl, rfl, rfl, rfl, rfl, rfl⟩⟩
  · intro hk
    apply SessionMap.ext_entries
    rw [he.2]
    exact modifyIn_of_not_mem _ hk
  · unfold SessionMap.keys
    rw [he.2]
    exact keysOf_modifyIn id _ m.entries
  · unfold SessionMap.sessions
    rw [he.2, sessionsOf_modifyIn]
    rfl
  · unfold SessionManager.GetSessionById
    rw [hfind id]
    cases hf : m.find id with
    | none => rfl
    | some p =>
      cases p with
      | none => simp
      | some s => simp [SessionData.SetPlayerData]
  · intro j hj
    unfold SessionManager.GetSessionById
    rw [hfind j]
    cases hf : m.find j with
    | none => rfl
    | some p => simp [hj]

/-- C14 at the scenario: giving session A the PlayerData dave changes that
field of A only; an id that is not present changes nothing. -/
theorem C14_SetSessionPlayerData_witness :
    NoNullEntry scenario
    ∧ 9 ∉ scenario.keys
    ∧ (SessionManager.SetSessionPlayerData scenario 9 (some ⟨40, "dave"⟩)).2 = scenario
    ∧ (SessionManager.SetSessionPlayerData scenario 1 (some ⟨40, "dave"⟩)).2.sessions
        = [(1, { sessionA with playerData := some ⟨40, "dave"⟩ }), (2, sessionB), (3, sessionC)] :=
  ⟨by decide, by decide,
    (C14_SetSessionPlayerData scenario 9 (some ⟨40, "dave"⟩) (by decide)).2.1 (by decide),
    (C14_SetSessionPlayerData scenario 1 (some ⟨40, "dave"⟩) (by decide)).2.2.2.1.trans rfl⟩

/-! ## C15: ForEach -/

theorem keysOf_append (a b : List Entry) : keysOf (a ++ b) = keysOf a ++ keysOf b := by
  simp [keysOf]

theorem keysOf_eraseIn (k : SessionId) (l : List Entry) :
    keysOf (SessionMap.eraseIn k l) = (keysOf l).filter (fun j => decide (j ≠ k)) := by
  induction l with
  | nil => rfl
  | cons e rest ih =>
    by_cases hk : e.1 = k
    · have h1 : SessionMap.eraseIn k (e :: rest) = SessionMap.eraseIn k rest := by
        unfold SessionMap.eraseIn
        simp [hk]
      rw [h1, ih, keysOf_cons, List.filter_cons]
      simp [hk]
    · rw [eraseIn_cons_ne hk, keysOf_cons, keysOf_cons, ih, List.filter_cons]
      simp [hk]

theorem find_next_keys {preK restK : List SessionId} {k : SessionId}
    (h : (preK ++ k :: restK).Pairwise (fun a b => a < b)) :
    (preK ++ k :: restK).find? (fun j => decide (k < j)) = restK.head? := by
  induction preK with
  | nil =>
    rw [List.nil_append, List.pairwise_cons] at h
    rw [List.nil_append, List.find?_cons]
    simp only [lt_irrefl, decide_False]
    cases restK with
    | nil => rfl
    | cons x rest1 =>
      rw [List.find?_cons]
      have hx : k < x := h.1 x (List.mem_cons_self _ _)
      simp [hx]
  | cons e pre1 ih =>
    rw [List.cons_append, List.pairwise_cons] at h
    have hlt : e < k := h.1 k (by simp)
    rw [List.cons_append, List.find?_cons]
    have hn : ¬ k < e := not_lt.2 (le_of_lt hlt)
    simp only [hn, decide_False]
    exact ih h.2

theorem filter_ne_keys {preK restK : List SessionId} {k : SessionId}
    (h : (preK ++ k :: restK).Pairwise (fun a b => a < b)) :
    (preK ++ k :: restK).filter (fun j => decide (j ≠ k)) = preK ++ restK := by
  rw [List.pairwise_append, List.pairwise_cons] at h
  rw [List.filter_append, List.filter_cons]
  have h1 : preK.filter (fun j => decide (j ≠ k)) = preK := by
    rw [List.filter_eq_self]
    intro j hj
    have := h.2.2 j hj k (List.mem_cons_self _ _)
    simpa using ne_of_lt this
  have h2 : restK.filter (fun j => decide (j ≠ k)) = restK := by
    rw [List.filter_eq_self]
    intro j hj
    have := h.2.1.1 j hj
    simpa using (ne_of_lt this).symm
  rw [h1, h2]
  simp

theorem findIn_append_cons {pre rest : List Entry} {k : SessionId} {p : SessionPtr}
    (h : (keysOf (pre ++ (k, p) :: rest)).Pairwise (fun a b => a < b)) :
    SessionMap.findIn k (pre ++ (k, p) :: rest) = some p := by
  induction pre with
  | nil => simp [SessionMap.findIn]
  | cons e pre1 ih =>
    rw [List.cons_append, keysOf_cons, List.pairwise_cons] at h
    have hlt : e.1 < k := h.1 k (by rw [keysOf_append, keysOf_cons]; simp)
    rw [List.cons_append]
    unfold SessionMap.findIn
    rw [if_neg (ne_of_lt hlt)]
    exact ih h.2

theorem eraseIn_append_cons {pre rest : List Entry} {k : SessionId} {p : SessionPtr}
    (h : (keysOf (pre ++ (k, p) :: rest)).Pairwise (fun a b => a < b)) :
    SessionMap.eraseIn k (pre ++ (k, p) :: rest) = pre ++ rest := by
  rw [keysOf_append, List.pairwise_append] at h
  have hpre : k ∉ keysOf pre := by
    intro hk
    exact lt_irrefl k (h.2.2 k hk k (by rw [keysOf_cons]; exact List.mem_cons_self _ _))
  have h1 : SessionMap.eraseIn k (pre ++ (k, p) :: rest)
      = SessionMap.eraseIn k pre ++ SessionMap.eraseIn k ((k, p) :: rest) := by
    unfold SessionMap.eraseIn
    exact List.filter_append _ _
  rw [h1, eraseIn_of_not_mem hpre, eraseIn_cons_eq h.2.1]

theorem KeyIsId_RemoveSession {m : SessionMap} (h : KeyIsId m) (id : SessionId) :
    KeyIsId (SessionManager.RemoveSession m id).2 :=
  fun k s hks => h k s (List.mem_filter.1 hks).1

theorem visitEntries_cons {ω : Type} (func : Visitor ω) (e : Entry) (l : List Entry)
    (m : SessionMap) (w : ω) :
    visitEntries func (e :: l) m w = visitEntries func l (func e.2 m w).1 (func e.2 m w).2 :=
  rfl

theorem visitKeys_cons {ω : Type} (func : Visitor ω) (k : SessionId) (ks : List SessionId)
    (m : SessionMap) (w : ω) {p : SessionPtr} (h : m.find k = some p) :
    visitKeys func (k :: ks) m w = visitKeys func ks (func p m w).1 (func p m w).2 := by
  unfold visitKeys
  rw [List.foldl_cons]
  simp only [h]

theorem ForEachLoop_keys {ω : Type} (func : Visitor ω)
    (hv : ∀ p m1 w1, KeyIsId m1 →
      KeyIsId (func p m1 w1).1
      ∧ ((func p m1 w1).1.keys = m1.keys
          ∨ ∃ s, p = some s
              ∧ (func p m1 w1).1.keys = (SessionManager.RemoveSession m1 s.GetId).2.keys))
    (restK : List SessionId) :
    ∀ (preK : List SessionId) (mc : SessionMap) (w : ω) (fuel : Nat),
      mc.keys = preK ++ restK → KeyIsId mc → restK.length ≤ fuel →
      ∃ visited, SessionManager.ForEachLoop func fuel restK.head? mc w
          = some (Except.ok (), (visitKeys func restK mc w).1, (visitKeys func restK mc w).2,
              visited)
        ∧ keysOf visited = restK := by
  induction restK with
  | nil =>
    intro preK mc w fuel _ _ _
    refine ⟨[], ?_, rfl⟩
    cases fuel <;> rfl
  | cons k restK1 ih =>
    intro preK mc w fuel hkeys hid hfuel
    cases fuel with
    | zero => simp at hfuel
    | succ f =>
      have hasc : (preK ++ k :: restK1).Pairwise (fun a b => a < b) := by
        rw [← hkeys]; exact mc.ascending
      have hmem : k ∈ keysOf mc.entries := by
        have : k ∈ mc.keys := by rw [hkeys]; simp
        exact this
      obtain ⟨p, hfind⟩ : ∃ p, mc.find k = some p := by
        cases hf : mc.find k with
        | none => exact absurd hmem (findIn_eq_none.1 hf)
        | some p => exact ⟨p, rfl⟩
      have hnext : SessionManager.nextKey mc k = restK1.head? := by
        unfold SessionManager.nextKey
        rw [hkeys]
        exact find_next_keys hasc
      obtain ⟨hid2, hkeys2⟩ := hv p mc w hid
      have hnew : ∃ preK1, (func p mc w).1.keys = preK1 ++ restK1 := by
        rcases hkeys2 with h1 | ⟨s, hp, h1⟩
        · refine ⟨preK ++ [k], ?_⟩
          rw [h1, hkeys]
          simp
        · refine ⟨preK, ?_⟩
          have hk : s.GetId = k := hid k s (by rw [← hp]; exact findIn_some_mem hfind)
          rw [h1, hk]
          show keysOf (SessionMap.eraseIn k mc.entries) = preK ++ restK1
          rw [keysOf_eraseIn]
          have : keysOf mc.entries = preK ++ k :: restK1 := hkeys
          rw [this]
          exact filter_ne_keys hasc
      obtain ⟨preK1, hpre1⟩ := hnew
      obtain ⟨visited, hrec, hvis⟩ :=
        ih preK1 (func p mc w).1 (func p mc w).2 f hpre1 hid2 (by simpa using hfuel)
      refine ⟨(k, p) :: visited, ?_, ?_⟩
      · have hhead : (k :: restK1).head? = some k := rfl
        rw [hhead, visitKeys_cons func k restK1 mc w hfind]
        unfold SessionManager.ForEachLoop
        simp only [hfind, hnext, hrec]
      · rw [keysOf_cons, hvis]

theorem ForEachLoop_visits {ω : Type} (func : Visitor ω)
    (hv : ∀ p m1 w1, (func p m1 w1).1 = m1
      ∨ ∃ s, p = some s ∧ (func p m1 w1).1 = (SessionManager.RemoveSession m1 s.GetId).2)
    (rest : List Entry) :
    ∀ (pre : List Entry) (mc : SessionMap) (w : ω) (fuel : Nat),
      mc.entries = pre ++ rest → (∀ k s, (k, some s) ∈ rest → s.GetId = k) →
      rest.length ≤ fuel →
      SessionManager.ForEachLoop func fuel (keysOf rest).head? mc w
        = some (Except.ok (), (visitEntries func rest mc w).1, (visitEntries func rest mc w).2,
            rest) := by
  induction rest with
  | nil =>
    intro pre mc w fuel _ _ _
    cases fuel <;> rfl
  | cons e rest1 ih =>
    intro pre mc w fuel hent hid hfuel
    obtain ⟨k, p⟩ := e
    cases fuel with
    | zero => simp at hfuel
    | succ f =>
      have hasc : (keysOf (pre ++ (k, p) :: rest1)).Pairwise (fun a b => a < b) := by
        rw [← hent]; exact mc.ascending
      have hfind : mc.find k = some p := by
        unfold SessionMap.find
        rw [hent]
        exact findIn_append_cons hasc
      have hnext : SessionManager.nextKey mc k = (keysOf rest1).head? := by
        unfold SessionManager.nextKey SessionMap.keys
        rw [hent, keysOf_append, keysOf_cons]
        rw [keysOf_append, keysOf_cons] at hasc
        exact find_next_keys hasc
      have hnew : ∃ pre1, (func p mc w).1.entries = pre1 ++ rest1 := by
        rcases hv p mc w with h1 | ⟨s, hp, h1⟩
        · refine ⟨pre ++ [(k, p)], ?_⟩
          rw [h1, hent]
          simp
        · refine ⟨pre, ?_⟩
          have hk : s.GetId = k := hid k s (by rw [hp]; exact List.mem_cons_self _ _)
          rw [h1, hk]
          show SessionMap.eraseIn k mc.entries = pre ++ rest1
          rw [hent]
          exact eraseIn_append_cons hasc
      obtain ⟨pre1, hpre1⟩ := hnew
      have hrec := ih pre1 (func p mc w).1 (func p mc w).2 f hpre1
        (fun k1 s1 h1 => hid k1 s1 (List.mem_cons_of_mem _ h1))
        (by simpa using hfuel)
      have hhead : (keysOf ((k, p) :: rest1)).head? = some k := rfl
      rw [hhead, visitEntries_cons]
      unfold SessionManager.ForEachLoop
      simp only [hfind, hnext, hrec]

/-- C15: on a registry in which every session is stored under its own id, for a
visitor that on every call either hands the map back as it is or removes the
session it was given by RemoveSession on that session's id, ForEach with enough
passes (at least the number of entries) returns normally, and the map and the
outside world it leaves are those of the left fold of the visitor over the
entries the registry had when ForEach started, in ascending key order: the
visitor is applied once to the pointer of each of these entries, each call
starting from what the previous one left, and to nothing else; the entries
visited are exactly those entries.  More generally, for a visitor that keeps
sessions under their own ids and either keeps the key set or removes from it
only the key of the session it was given, the result is the left fold of the
visitor over the keys the registry had at the start, each call receiving the
pointer then stored under the key. -/
theorem C15_ForEach {ω : Type} (func : Visitor ω) (m : SessionMap) (w : ω) (fuel : Nat)
    (hk : KeyIsId m)
    (hv : ∀ p m1 w1, (func p m1 w1).1 = m1
      ∨ ∃ s, p = some s ∧ (func p m1 w1).1 = (SessionManager.RemoveSession m1 s.GetId).2)
    (hfuel : m.size ≤ fuel) :
    SessionManager.ForEach func fuel m w
      = some (Except.ok (), (visitEntries func m.entries m w).1,
          (visitEntries func m.entries m w).2, m.entries)
    ∧ visitEntries func m.entries m w
      = m.entries.foldl (fun st e => func e.2 st.1 st.2) (m, w)
    ∧ (∀ {ω1 : Type} (func1 : Visitor ω1) (w1 : ω1),
        (∀ p m1 w2, KeyIsId m1 →
          KeyIsId (func1 p m1 w2).1
          ∧ ((func1 p m1 w2).1.keys = m1.keys
              ∨ ∃ s, p = some s
                  ∧ (func1 p m1 w2).1.keys
                    = (SessionManager.RemoveSession m1 s.GetId).2.keys)) →
        ∃ visited, SessionManager.ForEach func1 fuel m w1
            = some (Except.ok (), (visitKeys func1 m.keys m w1).1,
                (visitKeys func1 m.keys m w1).2, visited)
          ∧ keysOf visited = m.keys) := by
  refine ⟨ForEachLoop_visits func hv m.entries [] m w fuel rfl hk hfuel, rfl, ?_⟩
  intro ω1 func1 w1 hv1
  have hlen : m.keys.length ≤ fuel := by
    unfold SessionMap.keys keysOf
    rw [List.length_map]
    exact hfuel
  exact ForEachLoop_keys func1 hv1 m.keys [] m w1 fuel rfl hk hlen

/-- C15 at the scenario with the visitor that removes every session it is
given and logs its id: A, B and C are visited once each, in this order, the log
is [1, 2, 3] and the registry ends empty, which is what the fold of the visitor
over the three entries gives. -/
theorem C15_ForEach_witness :
    KeyIsId scenario
    ∧ (∀ p m1 w1, (removingVisitor p m1 w1).1 = m1
        ∨ ∃ s, p = some s
            ∧ (removingVisitor p m1 w1).1 = (SessionManager.RemoveSession m1 s.GetId).2)
    ∧ scenario.size ≤ 3
    ∧ SessionManager.ForEach removingVisitor 3 scenario []
        = some (Except.ok (), (visitEntries removingVisitor scenario.entries scenario []).1,
            (visitEntries removingVisitor scenario.entries scenario []).2, scenario.entries)
    ∧ visitEntries removingVisitor scenario.entries scenario [] = (SessionMap.empty, [1, 2, 3])
    ∧ SessionManager.ForEach removingVisitor 3 scenario []
        = some (Except.ok (), SessionMap.empty, [1, 2, 3],
            [(1, some sessionA), (2, some sessionB), (3, some sessionC)]) := by
  have hk : KeyIsId scenario := by
    intro k s hks
    simp only [scenario, List.mem_cons, Prod.mk.injEq, Option.some.injEq, List.mem_nil_iff,
      or_false] at hks
    rcases hks with ⟨h1, h2⟩ | ⟨h1, h2⟩ | ⟨h1, h2⟩ <;> rw [h1, h2] <;> rfl
  have hv : ∀ p m1 w1, (removingVisitor p m1 w1).1 = m1
      ∨ ∃ s, p = some s
          ∧ (removingVisitor p m1 w1).1 = (SessionManager.RemoveSession m1 s.GetId).2 := by
    intro p m1 w1
    cases p with
    | none => exact Or.inl rfl
    | some s => exact Or.inr ⟨s, rfl, rfl⟩
  exact ⟨hk, hv, by decide, (C15_ForEach removingVisitor scenario [] 3 hk hv (by decide)).1,
    rfl, rfl⟩

/-! ## C16 and C20: the registries the member functions can produce -/

theorem mem_insertIn {e x : Entry} {l : List Entry} (h : x ∈ SessionMap.insertIn e l) :
    x = e ∨ x ∈ l := by
  induction l with
  | nil =>
    simp [SessionMap.insertIn] at h
    exact Or.inl h
  | cons y rest ih =>
    unfold SessionMap.insertIn at h
    split_ifs at h
    · rcases List.mem_cons.1 h with h | h
      · exact Or.inr (h ▸ List.mem_cons_self _ _)
      · rcases ih h with h | h
        · exact Or.inl h
        · exact Or.inr (List.mem_cons_of_mem _ h)
    · rcases List.mem_cons.1 h with h | h
      · exact Or.inl h
      · exact Or.inr h
    · exact Or.inr h

theorem mem_modifyIn {k : SessionId} {f : SessionData → SessionData} {x : Entry}
    {l : List Entry} (h : x ∈ SessionMap.modifyIn k f l) :
    ∃ p, (x.1, p) ∈ l ∧ (x.2 = p ∨ x.2 = p.map f) := by
  unfold SessionMap.modifyIn at h
  obtain ⟨e, he, rfl⟩ := List.mem_map.1 h
  by_cases hk : e.1 = k
  · rw [if_pos hk]
    exact ⟨e.2, he, Or.inr rfl⟩
  · rw [if_neg hk]
    exact ⟨e.2, he, Or.inl rfl⟩

theorem AddSession_cases (m : SessionMap) (session : SessionPtr) :
    (SessionManager.AddSession m session).2 = m
      ∨ ∃ s, session = some s
          ∧ (SessionManager.AddSession m session).2 = m.insert (s.GetId, some s) := by
  unfold SessionManager.AddSession
  cases session with
  | none => exact Or.inl rfl
  | some s =>
    cases hlb : m.lower_bound s.GetId with
    | none =>
      right
      refine ⟨s, rfl, ?_⟩
      simp only [hlb]
    | some pos =>
      by_cases hid : s.GetId = pos.1
      · left
        simp only [hlb]
        rw [if_pos hid]
      · right
        refine ⟨s, rfl, ?_⟩
        simp only [hlb, hid, if_false]

theorem SetSessionPlayerData_cases (m : SessionMap) (id : SessionId)
    (playerData : Option PlayerData) :
    (SessionManager.SetSessionPlayerData m id playerData).2 = m
      ∨ (SessionManager.SetSessionPlayerData m id playerData).2
          = m.modify id (fun s => s.SetPlayerData playerData) := by
  unfold SessionManager.SetSessionPlayerData
  cases hf : m.find id with
  | none => exact Or.inl rfl
  | some p =>
    cases p with
    | none => exact Or.inl rfl
    | some s => exact Or.inr rfl

theorem Clear_cases {ω : Type} (tr : Transport ω) (m : SessionMap) (w : ω) :
    (SessionManager.Clear tr m w).2.1 = m
      ∨ (SessionManager.Clear tr m w).2.1 = SessionMap.empty := by
  unfold SessionManager.Clear
  cases hc : SessionManager.ClearLoop tr m.entries w with
  | mk r w1 =>
    cases r with
    | error f => exact Or.inl rfl
    | ok u => exact Or.inr rfl

theorem Reachable_consistent {m : SessionMap} (h : Reachable m) : NoNullEntry m ∧ KeyIsId m := by
  induction h with
  | init =>
    constructor
    · intro e he
      simp [SessionMap.empty] at he
    · intro k s he
      simp [SessionMap.empty] at he
  | addSession m session _ ih =>
    rcases AddSession_cases m session with h1 | ⟨s, _, h1⟩
    · rw [h1]; exact ih
    · rw [h1]
      constructor
      · intro e he
        rcases mem_insertIn he with h2 | h2
        · rw [h2]; simp
        · exact ih.1 e h2
      · intro k s1 he
        rcases mem_insertIn he with h2 | h2
        · have hk := congrArg Prod.fst h2
          have hs := congrArg Prod.snd h2
          simp only at hk hs
          rw [Option.some.inj hs, hk]
        · exact ih.2 k s1 h2
  | removeSession m id _ ih =>
    constructor
    · intro e he
      exact ih.1 e (List.mem_filter.1 he).1
    · intro k s he
      exact ih.2 k s (List.mem_filter.1 he).1
  | setSessionPlayerData m id playerData _ ih =>
    rcases SetSessionPlayerData_cases m id playerData with h1 | h1
    · rw [h1]; exact ih
    · rw [h1]
      constructor
      · intro e he
        obtain ⟨p, hp, h2 | h2⟩ := mem_modifyIn he
        · rw [h2]; exact ih.1 _ hp
        · rw [h2]
          have := ih.1 _ hp
          cases p with
          | none => exact absurd rfl this
          | some s0 => simp
      · intro k s he
        obtain ⟨p, hp, h2 | h2⟩ := mem_modifyIn he
        · simp only at hp h2
          rw [← h2] at hp
          exact ih.2 k s hp
        · simp only at hp h2
          cases p with
          | none => simp at h2
          | some s0 =>
            have h3 : s = s0.SetPlayerData playerData := by simpa using h2
            rw [h3]
            exact ih.2 k s0 hp
  | resetAllReadyFlags m _ ih =>
    have he := (ResetAllReadyFlags_of_noNull ih.1).2
    constructor
    · unfold NoNullEntry
      rw [he]
      exact resetEntries_noNull ih.1
    · intro k s hks
      rw [he] at hks
      unfold resetEntries at hks
      obtain ⟨e, hmem, heq⟩ := List.mem_map.1 hks
      have hk := congrArg Prod.fst heq
      have hs := congrArg Prod.snd heq
      simp only at hk hs
      cases hp : e.2 with
      | none => rw [hp] at hs; cases hs
      | some s0 =>
        rw [hp] at hs
        have h3 : s = s0.ResetReadyFlag := by simpa using hs.symm
        rw [h3, ← hk]
        exact ih.2 e.1 s0 (by rw [← hp]; exact hmem)
  | clear tr w m _ ih =>
    rcases Clear_cases tr m w with h1 | h1
    · rw [h1]; exact ih
    · rw [h1]
      constructor
      · intro e he
        simp [SessionMap.empty] at he
      · intro k s he
        simp [SessionMap.empty] at he

theorem entry_unique {l : List Entry} (hl : (keysOf l).Pairwise (fun a b => a < b))
    {k : SessionId} {p1 p2 : SessionPtr} (h1 : (k, p1) ∈ l) (h2 : (k, p2) ∈ l) : p1 = p2 := by
  induction l with
  | nil => simp at h1
  | cons e rest ih =>
    rw [keysOf_cons, List.pairwise_cons] at hl
    rcases List.mem_cons.1 h1 with h1 | h1 <;> rcases List.mem_cons.1 h2 with h2 | h2
    · have := h1.trans h2.symm
      exact congrArg Prod.snd this
    · have hk : e.1 = k := by rw [← h1]
      have := hl.1 k (mem_keysOf.2 ⟨p2, h2⟩)
      rw [hk] at this
      exact absurd this (lt_irrefl _)
    · have hk : e.1 = k := by rw [← h2]
      have := hl.1 k (mem_keysOf.2 ⟨p1, h1⟩)
      rw [hk] at this
      exact absurd this (lt_irrefl _)
    · exact ih hl.2 h1 h2

theorem Reachable_scenarioBuilt : Reachable scenarioBuilt :=
  Reachable.addSession _ (some sessionC)
    (Reachable.addSession _ (some sessionB)
      (Reachable.addSession _ (some sessionA) Reachable.init))

/-- C16: in every registry reachable from the empty one by AddSession,
RemoveSession, SetSessionPlayerData, ResetAllReadyFlags and Clear calls, failed
calls included, the keys are pairwise distinct, every session is stored under
its own id, no two entries hold sessions with the same id, and a session
returned by GetSessionById for an id has that id. -/
theorem C16_reachable_ids (m : SessionMap) (h : Reachable m) :
    m.keys.Nodup
    ∧ KeyIsId m
    ∧ (∀ ks1 ∈ m.sessions, ∀ ks2 ∈ m.sessions, ks1.2.GetId = ks2.2.GetId → ks1 = ks2)
    ∧ (∀ id s, SessionManager.GetSessionById m id = some s → s.GetId = id) := by
  have hc := Reachable_consistent h
  refine ⟨?_, hc.2, ?_, ?_⟩
  · exact m.ascending.imp (fun hab => ne_of_lt hab)
  · intro ks1 h1 ks2 h2 hid
    have e1 : (ks1.1, some ks1.2) ∈ m.entries := mem_sessionsOf.1 h1
    have e2 : (ks2.1, some ks2.2) ∈ m.entries := mem_sessionsOf.1 h2
    have k1 := hc.2 _ _ e1
    have k2 := hc.2 _ _ e2
    have hk : ks1.1 = ks2.1 := by rw [← k1, ← k2, hid]
    rw [hk] at e1
    have hs := Option.some.inj (entry_unique m.ascending e1 e2)
    exact Prod.ext hk hs
  · intro id s hg
    unfold SessionManager.GetSessionById at hg
    cases hf : m.find id with
    | none => rw [hf] at hg; cases hg
    | some p =>
      rw [hf] at hg
      simp only at hg
      rw [hg] at hf
      exact hc.2 id s (findIn_some_mem hf)

/-- C16 at the scenario built by three AddSession calls. -/
theorem C16_reachable_ids_witness :
    Reachable scenarioBuilt
    ∧ scenarioBuilt.keys = [1, 2, 3]
    ∧ KeyIsId scenarioBuilt
    ∧ SessionManager.GetSessionById scenarioBuilt 2 = some sessionB :=
  ⟨Reachable_scenarioBuilt, rfl,
    (C16_reachable_ids scenarioBuilt Reachable_scenarioBuilt).2.1, rfl⟩

/-! ## C17: what RemoveSession leaves alone -/

theorem findIn_eraseIn_ne {j k : SessionId} (h : j ≠ k) (l : List Entry) :
    SessionMap.findIn j (SessionMap.eraseIn k l) = SessionMap.findIn j l := by
  induction l with
  | nil => rfl
  | cons e rest ih =>
    by_cases hk : e.1 = k
    · have h1 : SessionMap.eraseIn k (e :: rest) = SessionMap.eraseIn k rest := by
        unfold SessionMap.eraseIn
        simp [hk]
      have hj : ¬ e.1 = j := fun hc => h (hc.symm.trans hk)
      rw [h1, ih]
      conv_rhs => unfold SessionMap.findIn
      rw [if_neg hj]
    · rw [eraseIn_cons_ne hk]
      unfold SessionMap.findIn
      rw [ih]

theorem sessionsOf_eraseIn (k : SessionId) (l : List Entry) :
    sessionsOf (SessionMap.eraseIn k l)
      = (sessionsOf l).filter (fun ks => decide (ks.1 ≠ k)) := by
  induction l with
  | nil => rfl
  | cons e rest ih =>
    obtain ⟨k1, p⟩ := e
    by_cases hk : k1 = k
    · have h1 : SessionMap.eraseIn k ((k1, p) :: rest) = SessionMap.eraseIn k rest := by
        unfold SessionMap.eraseIn
        simp [hk]
      rw [h1, ih]
      cases p with
      | none => rw [sessionsOf_cons_none]
      | some s1 =>
        rw [sessionsOf_cons_some, List.filter_cons]
        simp [hk]
    · have h1 : SessionMap.eraseIn k ((k1, p) :: rest)
          = (k1, p) :: SessionMap.eraseIn k rest := eraseIn_cons_ne hk
      rw [h1]
      cases p with
      | none => rw [sessionsOf_cons_none, sessionsOf_cons_none, ih]
      | some s1 =>
        rw [sessionsOf_cons_some, sessionsOf_cons_some, ih, List.filter_cons]
        simp [hk]

/-- C17: RemoveSession hands the outside world back as it is (it invokes close
on no socket) and modifies no session: an entry under another id is in the
registry afterwards exactly when it was before, with the same session, so every
lookup of another id gives what it gave before; every entry left was there
before; and the sessions left are those stored under the other ids, unchanged
and in the same order. -/
theorem C17_RemoveSession_frame {ω : Type} (m : SessionMap) (id : SessionId) (w : ω) :
    (RemoveSessionIn m id w).2.2 = w
    ∧ (RemoveSessionIn m id ([] : List Socket)).2.2 = []
    ∧ (RemoveSessionIn m id w).2.1 = (SessionManager.RemoveSession m id).2
    ∧ (∀ k p, k ≠ id →
        ((k, p) ∈ (SessionManager.RemoveSession m id).2.entries ↔ (k, p) ∈ m.entries))
    ∧ (∀ k, k ≠ id →
        SessionManager.GetSessionById (SessionManager.RemoveSession m id).2 k
          = SessionManager.GetSessionById m k)
    ∧ (∀ e ∈ (SessionManager.RemoveSession m id).2.entries, e ∈ m.entries)
    ∧ (SessionManager.RemoveSession m id).2.sessions
        = m.sessions.filter (fun ks => decide (ks.1 ≠ id)) := by
  refine ⟨rfl, rfl, rfl, ?_, ?_, ?_, ?_⟩
  · intro k p hk
    show (k, p) ∈ SessionMap.eraseIn id m.entries ↔ (k, p) ∈ m.entries
    unfold SessionMap.eraseIn
    rw [List.mem_filter]
    constructor
    · intro h; exact h.1
    · intro h; exact ⟨h, by simpa using hk⟩
  · intro k hk
    unfold SessionManager.GetSessionById SessionMap.find
    show (match SessionMap.findIn k (SessionMap.eraseIn id m.entries) with
      | some p => p
      | none => none) = _
    rw [findIn_eraseIn_ne hk]
  · intro e he
    exact (List.mem_filter.1 he).1
  · exact sessionsOf_eraseIn id m.entries

/-- C17 at the scenario: removing id 2 leaves A and C as they were. -/
theorem C17_RemoveSession_frame_witness :
    (1 : SessionId) ≠ 2
    ∧ SessionManager.GetSessionById (SessionManager.RemoveSession scenario 2).2 1
        = some sessionA
    ∧ (SessionManager.RemoveSession scenario 2).2.sessions = [(1, sessionA), (3, sessionC)] :=
  ⟨by decide,
    ((C17_RemoveSession_frame scenario 2 ()).2.2.2.2.1 1 (by decide)).trans rfl,
    (C17_RemoveSession_frame scenario 2 ()).2.2.2.2.2.2.trans rfl⟩

/-! ## C18: SendToAllButOneSessions against SendToAllSessions -/

theorem butOne_filter (except : SessionId) (state : State) (sel : List (SessionId × SessionData)) :
    sel.filter (fun ks => decide (ks.2.GetState = state ∧ ks.1 ≠ except))
      = (sel.filter (fun ks => decide (ks.2.GetState = state))).filter
          (fun ks => decide (ks.1 ≠ except)) := by
  rw [List.filter_filter]
  apply List.filter_congr
  intro ks _
  by_cases h1 : ks.2.GetState = state <;> by_cases h2 : ks.1 = except <;> simp [h1, h2]

theorem mem_sessionsOf_of_beforeNull {ks : SessionId × SessionData} {l : List Entry}
    (h : ks ∈ sessionsBeforeNull l) : ks ∈ sessionsOf l := by
  induction l with
  | nil => simp [sessionsBeforeNull] at h
  | cons e rest ih =>
    obtain ⟨k1, p⟩ := e
    cases p with
    | none => simp [sessionsBeforeNull] at h
    | some s1 =>
      unfold sessionsBeforeNull at h
      rw [sessionsOf_cons_some]
      rcases List.mem_cons.1 h with h | h
      · rw [h]; exact List.mem_cons_self _ _
      · exact List.mem_cons_of_mem _ (ih h)

/-- C18: for every registry, what SendToAllButOneSessions hands to the sender is
what SendToAllSessions hands to it with the session stored under `except` left
out, in the same order (both stop at the first empty pointer, if there is one);
when every session is stored under its own id, the recorded invocations of the
first are those of the second without the ones for a session with id `except`;
when `except` is not a key of the registry, or the session stored under it is
not in `state`, the two calls leave the same map and the same outside world, for
every sender; and on a registry without an empty pointer both return normally. -/
theorem C18_ButOne_refines_All {ω : Type} (sender : SenderHelper ω) (packet : NetPacket)
    (except : SessionId) (state : State) (m : SessionMap) (w : ω) :
    (SessionManager.SendToAllSessions sender packet state m w).2.2
        = deliver sender packet
            ((sessionsBeforeNull m.entries).filter (fun ks => decide (ks.2.GetState = state))) w
    ∧ (SessionManager.SendToAllButOneSessions sender packet except state m w).2.2
        = deliver sender packet
            (((sessionsBeforeNull m.entries).filter
                (fun ks => decide (ks.2.GetState = state))).filter
              (fun ks => decide (ks.1 ≠ except))) w
    ∧ (KeyIsId m →
        (SessionManager.SendToAllButOneSessions recordingSender packet except state m []).2.2
          = (SessionManager.SendToAllSessions recordingSender packet state m []).2.2.filter
              (fun c => decide (c.1.GetId ≠ except)))
    ∧ ((except ∉ m.keys ∨ ∀ s, (except, s) ∈ m.sessions → s.GetState ≠ state) →
        (SessionManager.SendToAllButOneSessions sender packet except state m w).2
          = (SessionManager.SendToAllSessions sender packet state m w).2)
    ∧ (NoNullEntry m →
        sessionsBeforeNull m.entries = m.sessions
        ∧ SessionManager.SendToAllButOneSessions sender packet except state m w
          = (Except.ok (), m, deliver sender packet
              ((m.sessions.filter (fun ks => decide (ks.2.GetState = state))).filter
                (fun ks => decide (ks.1 ≠ except))) w)
        ∧ SessionManager.SendToAllSessions sender packet state m w
          = (Except.ok (), m, deliver sender packet
              (m.sessions.filter (fun ks => decide (ks.2.GetState = state))) w)) := by
  have hall : ∀ {ω1 : Type} (sender1 : SenderHelper ω1) (w1 : ω1),
      (SessionManager.SendToAllSessions sender1 packet state m w1).2.2
        = deliver sender1 packet
            ((sessionsBeforeNull m.entries).filter
              (fun ks => decide (ks.2.GetState = state))) w1 := by
    intro ω1 sender1 w1
    unfold SessionManager.SendToAllSessions
    rw [SendToAllSessionsLoop_eq]
  have hone : ∀ {ω1 : Type} (sender1 : SenderHelper ω1) (w1 : ω1),
      (SessionManager.SendToAllButOneSessions sender1 packet except state m w1).2.2
        = deliver sender1 packet
            (((sessionsBeforeNull m.entries).filter
                (fun ks => decide (ks.2.GetState = state))).filter
              (fun ks => decide (ks.1 ≠ except))) w1 := by
    intro ω1 sender1 w1
    unfold SessionManager.SendToAllButOneSessions
    rw [SendToAllButOneSessionsLoop_eq, butOne_filter]
  refine ⟨hall sender w, hone sender w, ?_, ?_, ?_⟩
  · intro hk
    rw [hone, hall, deliver_recording, deliver_recording, List.nil_append, List.nil_append,
      List.filter_map]
    congr 1
    apply List.filter_congr
    intro ks hks
    have hmem : ks ∈ m.sessions := mem_sessionsOf_of_beforeNull (List.mem_filter.1 hks).1
    have hid : ks.2.GetId = ks.1 := hk ks.1 ks.2 (mem_sessionsOf.1 hmem)
    simp [hid]
  · intro hex
    refine Prod.ext rfl ?_
    rw [hone, hall]
    have hsame : ((sessionsBeforeNull m.entries).filter
          (fun ks => decide (ks.2.GetState = state))).filter
          (fun ks => decide (ks.1 ≠ except))
        = (sessionsBeforeNull m.entries).filter
            (fun ks => decide (ks.2.GetState = state)) := ?_
    · rw [hsame]
    rw [List.filter_eq_self]
    intro ks hks
    have hmem : ks ∈ m.sessions := mem_sessionsOf_of_beforeNull (List.mem_filter.1 hks).1
    have hst : ks.2.GetState = state := by simpa using (List.mem_filter.1 hks).2
    have hne : ks.1 ≠ except := by
      intro hc
      rcases hex with hex | hex
      · apply hex
        have he : (ks.1, some ks.2) ∈ m.entries := mem_sessionsOf.1 hmem
        rw [hc] at he
        exact mem_keysOf.2 ⟨some ks.2, he⟩
      · apply hex ks.2 _ hst
        rw [← hc]
        exact hmem
    simpa using hne
  · intro hn
    have hb := sessionsBeforeNull_of_noNull hn
    refine ⟨hb.1, ?_, ?_⟩
    · unfold SessionManager.SendToAllButOneSessions
      rw [SendToAllButOneSessionsLoop_eq, hb.1, hb.2, butOne_filter]
      rfl
    · unfold SessionManager.SendToAllSessions
      rw [SendToAllSessionsLoop_eq, hb.1, hb.2]
      rfl

/-- C18 at the extended scenario, state Game: excepting id 3 drops C from the
invocations, excepting the absent id 9 drops nothing. -/
theorem C18_ButOne_refines_All_witness :
    NoNullEntry scenarioD
    ∧ KeyIsId scenarioD
    ∧ 9 ∉ scenarioD.keys
    ∧ (SessionManager.SendToAllSessions recordingSender 7 State.Game scenarioD []).2.2
        = [(sessionC, 7), (sessionD, 7)]
    ∧ (SessionManager.SendToAllButOneSessions recordingSender 7 3 State.Game scenarioD []).2.2
        = [(sessionD, 7)]
    ∧ (SessionManager.SendToAllButOneSessions recordingSender 7 3 State.Game scenarioD []).2.2
        = (SessionManager.SendToAllSessions recordingSender 7 State.Game scenarioD []).2.2.filter
            (fun c => decide (c.1.GetId ≠ 3))
    ∧ (SessionManager.SendToAllButOneSessions recordingSender 7 9 State.Game scenarioD []).2
        = (SessionManager.SendToAllSessions recordingSender 7 State.Game scenarioD []).2
    ∧ SessionManager.SendToAllSessions recordingSender 7 State.Game scenarioD []
        = (Except.ok (), scenarioD, [(sessionC, 7), (sessionD, 7)]) := by
  have hk : KeyIsId scenarioD := by
    intro k s hks
    simp only [scenarioD, List.mem_cons, Prod.mk.injEq, Option.some.injEq, List.mem_nil_iff,
      or_false] at hks
    rcases hks with ⟨h1, h2⟩ | ⟨h1, h2⟩ | ⟨h1, h2⟩ | ⟨h1, h2⟩ <;> rw [h1, h2] <;> rfl
  exact ⟨by decide, hk, by decide, rfl,
    (C18_ButOne_refines_All recordingSender 7 3 State.Game scenarioD []).2.1.trans rfl,
    (C18_ButOne_refines_All recordingSender 7 3 State.Game scenarioD []).2.2.1 hk,
    (C18_ButOne_refines_All recordingSender 7 9 State.Game scenarioD []).2.2.2.1
      (Or.inl (by decide)),
    ((C18_ButOne_refines_All recordingSender 7 9 State.Game scenarioD []).2.2.2.2
      (by decide)).2.2.trans rfl⟩

/-! ## C19: GetPlayerIdList against GetPlayerDataList -/

theorem GetPlayerIdListLoop_of_dataList (l : List Entry) :
    ∀ (acc players : List PlayerData),
      SessionManager.GetPlayerDataListLoop l acc = Except.ok players →
      SessionManager.GetPlayerIdListLoop State.Game l (acc.map PlayerData.GetUniqueId)
        = Except.ok (players.map PlayerData.GetUniqueId) := by
  induction l with
  | nil =>
    intro acc players h
    unfold SessionManager.GetPlayerDataListLoop at h
    cases h
    rfl
  | cons e rest ih =>
    intro acc players h
    obtain ⟨k1, p⟩ := e
    cases p with
    | none =>
      unfold SessionManager.GetPlayerDataListLoop at h
      cases h
    | some s1 =>
      unfold SessionManager.GetPlayerDataListLoop at h
      unfold SessionManager.GetPlayerIdListLoop
      by_cases hs : s1.GetState = State.Game
      · rw [if_pos hs] at h
        rw [if_pos hs]
        cases hp : s1.GetPlayerData with
        | none => rw [hp] at h; cases h
        | some p1 =>
          rw [hp] at h
          by_cases he : p1.GetName.isEmpty = true
          · simp only [he, if_true] at h
            cases h
          · simp only [he] at h
            have := ih (acc ++ [p1]) players h
            rw [List.map_append] at this
            exact this
      · rw [if_neg hs] at h
        rw [if_neg hs]
        exact ih acc players h

theorem GetPlayerIdListLoop_of_playerData (state : State) {l : List Entry}
    (hn : ∀ e ∈ l, e.2 ≠ none)
    (hp : ∀ k s, (k, some s) ∈ l → s.GetState = state → s.GetPlayerData ≠ none)
    (acc : List Nat) :
    SessionManager.GetPlayerIdListLoop state l acc
        = Except.ok (acc ++ playerIdsOf state (sessionsOf l))
    ∧ (playerIdsOf state (sessionsOf l)).map some
        = ((sessionsOf l).filter (fun ks => decide (ks.2.GetState = state))).map
            (fun ks => ks.2.GetPlayerData.map PlayerData.GetUniqueId) := by
  induction l generalizing acc with
  | nil => exact ⟨by simp [SessionManager.GetPlayerIdListLoop, sessionsOf, playerIdsOf], rfl⟩
  | cons e rest ih =>
    obtain ⟨k1, p⟩ := e
    cases p with
    | none => exact absurd rfl (hn (k1, none) (List.mem_cons_self _ _))
    | some s1 =>
      have ihr := fun acc1 => ih (fun e he => hn e (List.mem_cons_of_mem _ he))
        (fun k s hks => hp k s (List.mem_cons_of_mem _ hks)) acc1
      unfold SessionManager.GetPlayerIdListLoop
      rw [sessionsOf_cons_some]
      by_cases hs : s1.GetState = state
      · rw [if_pos hs]
        cases hpd : s1.GetPlayerData with
        | none => exact absurd hpd (hp k1 s1 (List.mem_cons_self _ _) hs)
        | some p1 =>
          have hg : playerIdsOf state ((k1, s1) :: sessionsOf rest)
              = p1.GetUniqueId :: playerIdsOf state (sessionsOf rest) := by
            simp [playerIdsOf, List.filter_cons, hs, hpd]
          constructor
          · simp only
            rw [(ihr _).1, hg, List.append_assoc]
            rfl
          · rw [hg, List.map_cons, (ihr acc).2, List.filter_cons]
            simp [hs, hpd]
      · rw [if_neg hs]
        have hg : playerIdsOf state ((k1, s1) :: sessionsOf rest)
            = playerIdsOf state (sessionsOf rest) := by
          simp [playerIdsOf, List.filter_cons, hs]
        constructor
        · rw [(ihr _).1, hg]
        · rw [hg, (ihr acc).2, List.filter_cons]
          simp [hs]

/-- C19: whenever GetPlayerDataList returns a list, GetPlayerIdList for state
Game returns the unique ids of its elements, element by element in the same
order; and on a registry without an empty pointer in which every session in
`state` has PlayerData, GetPlayerIdList for `state` returns one element for each
session in that state, namely the unique id of its PlayerData, in ascending
order of the ids the sessions are stored under. -/
theorem C19_GetPlayerIdList (m : SessionMap) (state : State) (players : List PlayerData) :
    (SessionManager.GetPlayerDataList m = Except.ok players →
      SessionManager.GetPlayerIdList m State.Game
        = Except.ok (players.map PlayerData.GetUniqueId))
    ∧ (NoNullEntry m →
        (∀ ks ∈ m.sessions, ks.2.GetState = state → ks.2.GetPlayerData ≠ none) →
        ∃ ids, SessionManager.GetPlayerIdList m state = Except.ok ids
          ∧ ids.map some
            = (m.sessions.filter (fun ks => decide (ks.2.GetState = state))).map
                (fun ks => ks.2.GetPlayerData.map PlayerData.GetUniqueId)
          ∧ ids.length
            = (m.sessions.filter (fun ks => decide (ks.2.GetState = state))).length) := by
  constructor
  · intro h
    exact GetPlayerIdListLoop_of_dataList m.entries [] players h
  · intro hn hp
    have h1 := GetPlayerIdListLoop_of_playerData state hn
      (fun k s hks => hp (k, s) (mem_sessionsOf.2 hks)) []
    refine ⟨playerIdsOf state m.sessions, ?_, h1.2, ?_⟩
    · unfold SessionManager.GetPlayerIdList
      rw [h1.1]
      rfl
    · have := congrArg List.length h1.2
      rw [List.length_map, List.length_map] at this
      exact this

/-- C19 at the scenario: the data list is [bob], the id list for Game is [20],
and the id list for Established is [10]. -/
theorem C19_GetPlayerIdList_witness :
    SessionManager.GetPlayerDataList scenario = Except.ok [⟨20, "bob"⟩]
    ∧ SessionManager.GetPlayerIdList scenario State.Game = Except.ok [20]
    ∧ NoNullEntry scenario
    ∧ (∀ ks ∈ scenario.sessions, ks.2.GetState = State.Established →
        ks.2.GetPlayerData ≠ none)
    ∧ ∃ ids, SessionManager.GetPlayerIdList scenario State.Established = Except.ok ids
        ∧ ids.map some
          = (scenario.sessions.filter
              (fun ks => decide (ks.2.GetState = State.Established))).map
              (fun ks => ks.2.GetPlayerData.map PlayerData.GetUniqueId)
        ∧ ids.length
          = (scenario.sessions.filter
              (fun ks => decide (ks.2.GetState = State.Established))).length :=
  ⟨rfl,
    (C19_GetPlayerIdList scenario State.Game [⟨20, "bob"⟩]).1 rfl,
    by decide, by decide,
    (C19_GetPlayerIdList scenario State.Established []).2 (by decide) (by decide)⟩

/-! ## C20: the broadcasts on reachable registries -/

/-- C20: a registry reachable from the empty one by AddSession, RemoveSession,
SetSessionPlayerData, ResetAllReadyFlags and Clear calls holds no empty pointer,
and on it SendToAllSessions and SendLobbyMsgToAllSessions return normally for
every sender, packet, state and outside world. -/
theorem C20_reachable_broadcasts (m : SessionMap) (h : Reachable m) :
    NoNullEntry m
    ∧ (∀ {ω : Type} (sender : SenderHelper ω) (packet : NetPacket) (state : State) (w : ω),
        (SessionManager.SendToAllSessions sender packet state m w).1 = Except.ok ()
        ∧ (SessionManager.SendLobbyMsgToAllSessions sender packet state m w).1
            = Except.ok ()) := by
  have hc := (Reachable_consistent h).1
  have hb := sessionsBeforeNull_of_noNull hc
  refine ⟨hc, ?_⟩
  intro ω sender packet state w
  constructor
  · unfold SessionManager.SendToAllSessions
    rw [SendToAllSessionsLoop_eq, hb.2]
    rfl
  · unfold SessionManager.SendLobbyMsgToAllSessions
    rw [SendLobbyMsgToAllSessionsLoop_eq, hb.2]
    rfl

/-- C20 at the scenario built by three AddSession calls. -/
theorem C20_reachable_broadcasts_witness :
    Reachable scenarioBuilt
    ∧ NoNullEntry scenarioBuilt
    ∧ (SessionManager.SendToAllSessions recordingSender 7 State.Game scenarioBuilt []).1
        = Except.ok ()
    ∧ (SessionManager.SendLobbyMsgToAllSessions recordingSender 7 State.Game scenarioBuilt []).1
        = Except.ok () :=
  ⟨Reachable_scenarioBuilt,
    (C20_reachable_broadcasts scenarioBuilt Reachable_scenarioBuilt).1,
    ((C20_reachable_broadcasts scenarioBuilt Reachable_scenarioBuilt).2
      recordingSender 7 State.Game []).1,
    ((C20_reachable_broadcasts scenarioBuilt Reachable_scenarioBuilt).2
      recordingSender 7 State.Game []).2⟩

end PokerTH
